import Mathlib

/-!
# The `run` arena simulation: embedding of `main.go` and its verified properties

Modelling conventions.

* `float64` coordinates are read as elements of a linearly ordered field `α`
  carrying a square root (`HasSqrt`); every theorem is stated at `α = ℝ`.
  The definitions themselves are generic and computable.
  Only for `Camera.FollowTarget` is the rounding of binary64 arithmetic modelled
  as well (`round64`, `Camera.FollowTarget64`, over `ℚ`).
* `int` fields (`Life`, `Bullets`, `Type`) are `Int`.  The only arithmetic on
  them is `Life -= 50`, `Life -= 10` and a guarded `Bullets--`.
* `time.Time` is an `Int` count of nanoseconds on one time line whose origin is
  the zero `time.Time`; `time.Duration` is an `Int` count of nanoseconds and
  `Time.Sub` saturates at the 64-bit bounds as the Go library does.  One call
  of `Enemy.Update` or `Game.Update` observes one clock reading `now`.
* `ebiten.IsKeyPressed` is read from an explicit `Input` snapshot and
  `rand.Intn` from an explicit stream of raw draws.
* Pointer receivers become state passing: a method returns the values it may
  have written.
-/

namespace Run

/-! ## Scalars, time -/

/-- Square root on the scalar type, the counterpart of `math.Sqrt`. -/
class HasSqrt (α : Type) where
  sqrt : α → α

noncomputable instance instHasSqrtReal : HasSqrt ℝ := ⟨Real.sqrt⟩

/-- Instants (`time.Time`), in nanoseconds since the zero instant. -/
abbrev Time := Int

/-- Elapsed times (`time.Duration`), in nanoseconds. -/
abbrev Duration := Int

def Millisecond : Duration := 1000000

def Second : Duration := 1000 * Millisecond

def Hour : Duration := 3600 * Second

def maxDuration : Duration := 2 ^ 63 - 1

def minDuration : Duration := -(2 ^ 63)

/-- Go `t.Sub(u)`: the difference, saturated to the range of a `Duration`. -/
def Time.Sub (t u : Time) : Duration :=
  if t - u > maxDuration then maxDuration
  else if t - u < minDuration then minDuration
  else t - u

/-- Go `time.Since(t)` evaluated when the clock reads `now`. -/
def Time.Since (now t : Time) : Duration := Time.Sub now t

/-- Go `t.Add(d)`. -/
def Time.Add (t : Time) (d : Duration) : Time := t + d

/-- The zero value of `time.Time`. -/
def Time.zero : Time := 0

/-! ## Vector -/

structure Vector (α : Type) where
  X : α
  Y : α
deriving DecidableEq, Repr

section Defs

variable {α : Type} [LinearOrderedField α] [HasSqrt α]

def Vector.Add (v v2 : Vector α) : Vector α := ⟨v.X + v2.X, v.Y + v2.Y⟩

def Vector.Sub (v v2 : Vector α) : Vector α := ⟨v.X - v2.X, v.Y - v2.Y⟩

def Vector.Mul (v : Vector α) (s : α) : Vector α := ⟨v.X * s, v.Y * s⟩

def Vector.Div (v : Vector α) (s : α) : Vector α := ⟨v.X / s, v.Y / s⟩

def Vector.Length (v : Vector α) : α := HasSqrt.sqrt (v.X * v.X + v.Y * v.Y)

def Vector.Normalize (v : Vector α) : Vector α :=
  let length := v.Length
  if length = 0 then ⟨0, 0⟩ else v.Div length

/-! ## Entity -/

structure Entity (α : Type) where
  Position : Vector α
  Velocity : Vector α
  Speed : α
deriving DecidableEq, Repr

/-- Source `func (e *Entity) Update()`: the four wall tests, in source order. -/
def Entity.Update (e : Entity α) : Entity α :=
  let e := if e.Position.X - 10 < 0 then
      { e with Position := { e.Position with X := 10 }, Velocity := { e.Velocity with X := 0 } }
    else e
  let e := if e.Position.X + 10 > 5000 then
      { e with Position := { e.Position with X := 4990 }, Velocity := { e.Velocity with X := 0 } }
    else e
  let e := if e.Position.Y - 10 < 0 then
      { e with Position := { e.Position with Y := 10 }, Velocity := { e.Velocity with Y := 0 } }
    else e
  let e := if e.Position.Y + 10 > 5000 then
      { e with Position := { e.Position with Y := 4990 }, Velocity := { e.Velocity with Y := 0 } }
    else e
  e

/-! ## Player -/

/-- The per-tick snapshot of `ebiten.IsKeyPressed` for the keys the game reads. -/
structure Input where
  KeyW : Bool
  KeyS : Bool
  KeyA : Bool
  KeyD : Bool
  KeyControlLeft : Bool
  Key1 : Bool
deriving DecidableEq, Repr

structure Player (α : Type) extends Entity α where
  Life : Int
deriving DecidableEq, Repr

/-- Source `func (p *Player) Update(g *Game)`; the game argument is not used by the body. -/
def Player.Update (p : Player α) (inp : Input) : Player α :=
  let p := { p with toEntity := p.toEntity.Update }
  let p := { p with Velocity := ⟨0, 0⟩ }
  let p := if inp.KeyW then { p with Velocity := { p.Velocity with Y := p.Velocity.Y - 1 } } else p
  let p := if inp.KeyS then { p with Velocity := { p.Velocity with Y := p.Velocity.Y + 1 } } else p
  let p := if inp.KeyA then { p with Velocity := { p.Velocity with X := p.Velocity.X - 1 } } else p
  let p := if inp.KeyD then { p with Velocity := { p.Velocity with X := p.Velocity.X + 1 } } else p
  { p with Position := p.Position.Add (p.Velocity.Normalize.Mul p.Speed) }

/-! ## Projectile, Camera -/

structure Projectile (α : Type) where
  Position : Vector α
  Velocity : Vector α
deriving DecidableEq, Repr

def Projectile.Update (p : Projectile α) : Projectile α :=
  { p with Position := p.Position.Add p.Velocity }

def Projectile.ShouldBeRemoved (p : Projectile α) : Bool :=
  p.Position.X < 0 || p.Position.X > 5000 || p.Position.Y < 0 || p.Position.Y > 5000

def Projectile.CollidesWith (p : Projectile α) (e : Entity α) : Bool :=
  (p.Position.Sub e.Position).Length < 10

structure Camera (α : Type) where
  Position : Vector α
deriving DecidableEq, Repr

/-- Source `func (c *Camera) FollowTarget`, with `float64` read as an element of the
field `α` and the literal `0.05` as 1/20.  The same function with every operation
rounded to binary64 is `Camera.FollowTarget64`. -/
def Camera.FollowTarget (c : Camera α) (target : Entity α) (screenW screenH : Int) : Camera α :=
  let factor : α := 0.05
  let targetPosition : Vector α :=
    ⟨-target.Position.X + (screenW : α) / 2, -target.Position.Y + (screenH : α) / 2⟩
  { c with Position := c.Position.Add ((targetPosition.Sub c.Position).Mul factor) }

/-! ## Enemy, Game -/

def GUARD : Int := 0

def SCOUT : Int := 1

structure Enemy (α : Type) extends Entity α where
  Origin : Vector α
  Typ : Int
  State : String
  Bullets : Int
  LastShotTime : Time
deriving DecidableEq, Repr

structure Game (α : Type) where
  Player : Player α
  Enemies : List (Enemy α)
  ShootingCoolDown : Duration
  Projectiles : List (Projectile α)
  Camera : Camera α
  LastSpawnTime : Time
  SpawnRate : Duration
  Debug : Bool
  Key1Pressed : Bool

def Enemy.CollidesWith (e : Enemy α) (p : Player α) : Bool :=
  (e.Position.Sub p.Position).Length < 20

/-- Source `func (e Enemy) Shoot(p Player, g *Game)`: the only write is to `g.Projectiles`. -/
def Enemy.Shoot (e : Enemy α) (p : Player α) (g : Game α) : Game α :=
  if e.Bullets = 0 then g
  else
    let direction := (p.Position.Sub e.Position).Normalize
    let projectile : Projectile α := { Position := e.Position, Velocity := direction.Mul 20 }
    { g with Projectiles := g.Projectiles ++ [projectile] }

/-- Source `func (e *Enemy) Update(p *Player, g *Game)`.  The result is the enemy, the
player and the game after the call; of the game only `Projectiles` is written
and only `ShootingCoolDown` is read. -/
def Enemy.Update (e : Enemy α) (p : Player α) (g : Game α) (now : Time) :
    Enemy α × Player α × Game α :=
  let e := { e with toEntity := e.toEntity.Update }
  let e := { e with Velocity := ⟨0, 0⟩ }
  if e.CollidesWith p then
    let e := { e with Velocity := ⟨0, 0⟩ }
    if Time.Since now e.LastShotTime > 500 * Millisecond then
      ({ e with LastShotTime := now }, { p with Life := p.Life - 50 }, g)
    else (e, p, g)
  else
    let distance := (p.Position.Sub e.Position).Length
    if distance < 800 then
      let e := { e with State := "CHASE" }
      if distance < 400 then
        let e := { e with Velocity := (p.Position.Sub e.Position).Normalize.Mul e.Speed }
        let e := { e with Position := e.Position.Add e.Velocity }
        (e, p, g)
      else if e.Bullets > 0 then
        if Time.Since now e.LastShotTime > g.ShootingCoolDown then
          let g := e.Shoot p g
          let e := { e with Bullets := e.Bullets - 1 }
          let e := { e with LastShotTime := now }
          (e, p, g)
        else (e, p, g)
      else (e, p, g)
    else if e.Typ = GUARD then
      let e := { e with State := "PATROL" }
      if (e.Position.Sub e.Origin).Length > 5 then
        let e := { e with Velocity := (e.Origin.Sub e.Position).Normalize.Mul (e.Speed / 2) }
        let e := { e with Position := e.Position.Add e.Velocity }
        (e, p, g)
      else
        let e := { e with Position := e.Origin }
        let e := { e with Bullets := 100 }
        let e := { e with State := "IDLE" }
        (e, p, g)
    else (e, p, g)

/-! ## Randomness -/

/-- The stream of raw draws behind `math/rand`. -/
abbrev Rand := Nat → Nat

/-- Go `rand.Intn(n)`: a value in `[0, n)` and the rest of the stream. -/
def Rand.Intn (r : Rand) (n : Nat) : Nat × Rand := (r 0 % n, fun k => r (k + 1))

/-! ## Game -/

/-- Source `func (g *Game) Init()`. -/
def Game.Init (g : Game α) (rnd : Rand) : Game α × Rand :=
  let (randomX, rnd) := rnd.Intn 5000
  let (randomY, rnd) := rnd.Intn 5000
  let g := { g with Debug := false }
  let g := { g with
    Player := { Position := ⟨(randomX : α), (randomY : α)⟩, Velocity := ⟨0, 0⟩, Speed := 8,
                Life := 100 } }
  let g := { g with Camera := { Position := ⟨0, 0⟩ } }
  let g := { g with ShootingCoolDown := 200 * Millisecond }
  (g, rnd)

/-- The zero value `Game{}` that `main` starts from. -/
def Game.zero : Game α :=
  { Player := { Position := ⟨0, 0⟩, Velocity := ⟨0, 0⟩, Speed := 0, Life := 0 }
    Enemies := []
    ShootingCoolDown := 0
    Projectiles := []
    Camera := { Position := ⟨0, 0⟩ }
    LastSpawnTime := Time.zero
    SpawnRate := 0
    Debug := false
    Key1Pressed := false }

/-- The body of `for i := range g.Enemies` at index `i`:
`g.Enemies[i].Update(&g.Player, g)`. -/
def Game.updateEnemy (now : Time) (g : Game α) (i : Nat) : Game α :=
  match g.Enemies[i]? with
  | none => g
  | some e =>
    let r := e.Update g.Player g now
    { r.2.2 with Player := r.2.1, Enemies := r.2.2.Enemies.set i r.1 }

/-- The loop `for i := range g.Enemies`. -/
def Game.updateEnemies (now : Time) (g : Game α) : Game α :=
  (List.range g.Enemies.length).foldl (Game.updateEnemy now) g

/-- The body of the projectile loop at index `i`; `none` is the index-out-of-range
panic of `g.Projectiles[i]`. -/
def Game.projectileStep (g : Game α) (i : Nat) : Option (Game α) :=
  match g.Projectiles[i]? with
  | none => none
  | some p =>
    let p := p.Update
    let g := { g with Projectiles := g.Projectiles.set i p }
    let g := if p.CollidesWith g.Player.toEntity then
        { g with Player := { g.Player with Life := g.Player.Life - 10 } }
      else g
    if p.ShouldBeRemoved then
      some { g with Projectiles := g.Projectiles.take i ++ g.Projectiles.drop (i + 1) }
    else some g

/-- The loop `for i := len(g.Projectiles) - 1; i >= 0; i--`, entered with
`n = i + 1`. -/
def Game.projectileLoop : Nat → Game α → Option (Game α)
  | 0, g => some g
  | i + 1, g => (g.projectileStep i).bind (Game.projectileLoop i)

/-- Ghost log of the projectile loop: the elements found at `g.Projectiles[i]`
by the successive iterations, as they were when read. -/
def Game.projectileVisits : Nat → Game α → List (Projectile α)
  | 0, _ => []
  | i + 1, g =>
    match g.Projectiles[i]?, g.projectileStep i with
    | some p, some g1 => p :: Game.projectileVisits i g1
    | _, _ => []

/-- The loop `for i := 0; i < 10; i++` of the spawn wave, entered with the
number of iterations left. -/
def Game.spawnLoop : Nat → Game α → Rand → Game α × Rand
  | 0, g, rnd => (g, rnd)
  | k + 1, g, rnd =>
    let (randomX, rnd) := rnd.Intn 5000
    let (randomY, rnd) := rnd.Intn 5000
    let position : Vector α := ⟨(randomX : α), (randomY : α)⟩
    let g := { g with
      Enemies := g.Enemies ++ [{ Position := position, Velocity := ⟨0, 0⟩, Speed := 6,
                                 Origin := position, Typ := GUARD, State := "IDLE",
                                 Bullets := 100, LastShotTime := Time.zero }] }
    Game.spawnLoop k g rnd

/-- The debug-toggle block of `Game.Update`: the test on `KeyControlLeft`. -/
def Game.toggleDebug (g : Game α) (inp : Input) : Game α :=
  if inp.KeyControlLeft then
    if inp.Key1 && !g.Key1Pressed then { g with Debug := !g.Debug, Key1Pressed := true } else g
  else { g with Key1Pressed := false }

/-- The reset block of `Game.Update`: the test `g.Player.Life <= 0`. -/
def Game.resetIfDead (g : Game α) (now : Time) (rnd : Rand) : Game α × Rand :=
  if g.Player.Life ≤ 0 then
    let g := { g with Enemies := [] }
    let g := { g with Player := { g.Player with Life := 100 } }
    let g := { g with Projectiles := [] }
    let g := { g with LastSpawnTime := Time.Add now (-999 * Hour) }
    let g := { g with Debug := false }
    g.Init rnd
  else (g, rnd)

/-- The camera statement of `Game.Update`. -/
def Game.follow (g : Game α) : Game α :=
  { g with Camera := g.Camera.FollowTarget g.Player.toEntity 1920 1080 }

/-- The spawn block of `Game.Update`: the test on `time.Since(g.LastSpawnTime)`. -/
def Game.spawn (g : Game α) (now : Time) (rnd : Rand) : Game α :=
  if Time.Since now g.LastSpawnTime > 10 * Second then
    let (g, _) := g.spawnLoop 10 rnd
    { g with LastSpawnTime := now }
  else g

/-- Source `func (g *Game) Update() error`, block by block in source order: player
update, debug toggle, reset on death, enemy loop, camera, projectile loop, spawn
wave.  The value `none` is a run-time panic. -/
def Game.Update (g : Game α) (inp : Input) (now : Time) (rnd : Rand) : Option (Game α) :=
  let g := { g with Player := g.Player.Update inp }
  let g := g.toggleDebug inp
  let (g, rnd) := g.resetIfDead now rnd
  let g := g.updateEnemies now
  let g := g.follow
  match g.projectileLoop g.Projectiles.length with
  | none => none
  | some g => some (g.spawn now rnd)

/-- The game as the enemy loop of `Game.Update` finds it, with the rest of the
random stream. -/
def Game.beforeEnemies (g : Game α) (inp : Input) (now : Time) (rnd : Rand) : Game α × Rand :=
  (Game.toggleDebug { g with Player := g.Player.Update inp } inp).resetIfDead now rnd

/-! ## Spec-side description of the projectile pass -/

/-- The arena test of the spec: `0 ≤ X ≤ 5000` and `0 ≤ Y ≤ 5000`. -/
def Projectile.inArena (p : Projectile α) : Bool :=
  decide (0 ≤ p.Position.X ∧ p.Position.X ≤ 5000 ∧ 0 ≤ p.Position.Y ∧ p.Position.Y ≤ 5000)

/-- The projectile list after one tick as the spec words it: advance every
projectile by its velocity, then keep, in order, those inside the arena. -/
def projectilesAfterTick (ps : List (Projectile α)) : List (Projectile α) :=
  (ps.map Projectile.Update).filter Projectile.inArena

/-! ## Named sample values -/

/-- The enemy that the spawn wave of `Game.Update` creates at `(x, y)`. -/
def Enemy.spawned (x y : α) : Enemy α :=
  { Position := ⟨x, y⟩, Velocity := ⟨0, 0⟩, Speed := 6, Origin := ⟨x, y⟩, Typ := GUARD,
    State := "IDLE", Bullets := 100, LastShotTime := Time.zero }

/-- The player that `Game.Init` creates at `(x, y)`. -/
def Player.fresh (x y : α) : Player α :=
  { Position := ⟨x, y⟩, Velocity := ⟨0, 0⟩, Speed := 8, Life := 100 }

/-! ## Sequences of Enemy.Update calls -/

/-- What one call of `Enemy.Update` is given besides the enemy itself: the
player, the game and the clock reading of the call. -/
structure EnemyCall (α : Type) where
  p : Player α
  g : Game α
  now : Time

/-- The enemy after a sequence of `Enemy.Update` calls, each with its own player,
game and clock reading. -/
def Enemy.runCalls (e : Enemy α) : List (EnemyCall α) → Enemy α
  | [] => e
  | c :: cs => Enemy.runCalls (e.Update c.p c.g c.now).1 cs

/-- The call `c` made on enemy `e` takes 50 off the player's `Life`. -/
def Enemy.deducts (e : Enemy α) (c : EnemyCall α) : Prop :=
  (e.Update c.p c.g c.now).2.1.Life = c.p.Life - 50

/-- The state of the enemy spawned at `(0, 10)` after one `Enemy.Update` with the
player out of range: the clamp put it at `(10, 10)` and the patrol step took it
3 units back toward its origin. -/
def Enemy.nearWall : Enemy α :=
  { Position := ⟨7, 10⟩, Velocity := ⟨-3, 0⟩, Speed := 6, Origin := ⟨0, 10⟩, Typ := GUARD,
    State := "PATROL", Bullets := 100, LastShotTime := Time.zero }

/-! ## Spec-side description of the spawn wave -/

/-- The enemies of a spawn wave of `k` enemies drawn from the stream `rnd`: the
`j`-th one is the freshly spawned enemy at `(rnd (2j) % 5000, rnd (2j+1) % 5000)`. -/
def spawnWave : Nat → Rand → List (Enemy α)
  | 0, _ => []
  | k + 1, rnd =>
    Enemy.spawned ((rnd 0 % 5000 : Nat) : α) ((rnd 1 % 5000 : Nat) : α) ::
      spawnWave k (fun i => rnd (i + 2))

/-- The fields of the game that neither the enemy loop nor the projectile loop
writes are equal in the two states. -/
def Game.frameEq (g g1 : Game α) : Prop :=
  g1.ShootingCoolDown = g.ShootingCoolDown ∧ g1.Camera = g.Camera ∧
  g1.LastSpawnTime = g.LastSpawnTime ∧ g1.SpawnRate = g.SpawnRate ∧
  g1.Debug = g.Debug ∧ g1.Key1Pressed = g.Key1Pressed

/-- The game as the projectile loop of `Game.Update` finds it. -/
def Game.beforeProjectiles (g : Game α) (inp : Input) (now : Time) (rnd : Rand) : Game α :=
  ((g.beforeEnemies inp now rnd).1.updateEnemies now).follow

/-! ## Spec-side description of the player's input -/

/-- The net direction `(D - A, S - W)` of a snapshot of the four directional keys. -/
def Input.direction (inp : Input) : Vector α :=
  ⟨(if inp.KeyD then 1 else 0) - (if inp.KeyA then 1 else 0),
   (if inp.KeyS then 1 else 0) - (if inp.KeyW then 1 else 0)⟩

/-- An enemy at `(10, 10)` with origin `(0, 10)` and `Speed` 20: its patrol step of
`Speed / 2 = 10` is exactly its distance to the origin. -/
def Enemy.fastNearWall : Enemy α :=
  { Position := ⟨10, 10⟩, Velocity := ⟨0, 0⟩, Speed := 20, Origin := ⟨0, 10⟩, Typ := GUARD,
    State := "PATROL", Bullets := 100, LastShotTime := Time.zero }

/-! ## Sequences of Game.Update calls -/

/-- What one call of `Game.Update` is given besides the game: the input snapshot,
the clock reading and the random stream of the tick. -/
structure Tick where
  inp : Input
  now : Time
  rnd : Rand

/-- The game after a sequence of `Game.Update` calls; `none` if one of them panics. -/
def Game.runTicks (g : Game α) : List Tick → Option (Game α)
  | [] => some g
  | t :: ts => (g.Update t.inp t.now t.rnd).bind (fun g1 => Game.runTicks g1 ts)

/-! ## Binary64 arithmetic, for the camera

The definitions above read `float64` as a real number.  For `Camera.FollowTarget`
the rounding of binary64 arithmetic is visible in the result, so the function is
also given with every arithmetic operation rounded (IEEE 754 round to nearest, ties
to even; overflow to an infinity is not modelled). -/

/-- The binary exponent that decides the rounding of `x`: the `e` with
`2 ^ e ≤ |x| < 2 ^ (e + 1)`, but not below the exponent -1022 of the subnormal range. -/
def exponent64 (x : ℚ) : ℤ := max (Int.log 2 |x|) (-1022)

/-- The spacing of the binary64 values around `x` (53 significant bits). -/
def ulp64 (x : ℚ) : ℚ := (2 : ℚ) ^ (exponent64 x - 52)

/-- Round to the nearest integer, a tie to the even one. -/
def roundEven (x : ℚ) : ℤ :=
  if x - ⌊x⌋ < 1 / 2 then ⌊x⌋
  else if 1 / 2 < x - ⌊x⌋ then ⌊x⌋ + 1
  else if ⌊x⌋ % 2 = 0 then ⌊x⌋
  else ⌊x⌋ + 1

/-- The binary64 value nearest to `x`, a tie to the one with even significand. -/
def round64 (x : ℚ) : ℚ := roundEven (x / ulp64 x) * ulp64 x

/-- Binary64 `Vector.Add`. -/
def Vector.Add64 (v v2 : Vector ℚ) : Vector ℚ := ⟨round64 (v.X + v2.X), round64 (v.Y + v2.Y)⟩

/-- Binary64 `Vector.Sub`. -/
def Vector.Sub64 (v v2 : Vector ℚ) : Vector ℚ := ⟨round64 (v.X - v2.X), round64 (v.Y - v2.Y)⟩

/-- Binary64 `Vector.Mul`. -/
def Vector.Mul64 (v : Vector ℚ) (s : ℚ) : Vector ℚ := ⟨round64 (v.X * s), round64 (v.Y * s)⟩

/-- Source `func (c *Camera) FollowTarget` in binary64 arithmetic: the literal `0.05`
is the binary64 value nearest to 1/20, the conversion `float64(screenW)` and every
addition, subtraction, multiplication and division are rounded. -/
def Camera.FollowTarget64 (c : Camera ℚ) (target : Entity ℚ) (screenW screenH : Int) :
    Camera ℚ :=
  let factor : ℚ := round64 0.05
  let targetPosition : Vector ℚ :=
    ⟨round64 (-target.Position.X + round64 (round64 (screenW : ℚ) / 2)),
     round64 (-target.Position.Y + round64 (round64 (screenH : ℚ) / 2))⟩
  { c with Position := c.Position.Add64 ((targetPosition.Sub64 c.Position).Mul64 factor) }

end Defs

/-! ## Entity.Update over the reals -/

theorem sqrt_real (x : ℝ) : HasSqrt.sqrt x = Real.sqrt x := rfl

theorem Entity.Update_Position_X (e : Entity ℝ) :
    e.Update.Position.X =
      if e.Position.X < 10 then 10 else if 4990 < e.Position.X then 4990 else e.Position.X := by
  unfold Entity.Update
  simp only []
  split_ifs <;> simp_all <;> linarith

theorem Entity.Update_Position_Y (e : Entity ℝ) :
    e.Update.Position.Y =
      if e.Position.Y < 10 then 10 else if 4990 < e.Position.Y then 4990 else e.Position.Y := by
  unfold Entity.Update
  simp only []
  split_ifs <;> simp_all <;> linarith

theorem Entity.Update_Velocity_X (e : Entity ℝ) :
    e.Update.Velocity.X =
      if e.Position.X < 10 then 0 else if 4990 < e.Position.X then 0 else e.Velocity.X := by
  unfold Entity.Update
  simp only []
  split_ifs <;> simp_all <;> linarith

theorem Entity.Update_Velocity_Y (e : Entity ℝ) :
    e.Update.Velocity.Y =
      if e.Position.Y < 10 then 0 else if 4990 < e.Position.Y then 0 else e.Velocity.Y := by
  unfold Entity.Update
  simp only []
  split_ifs <;> simp_all <;> linarith

theorem Entity.Update_Speed (e : Entity ℝ) : e.Update.Speed = e.Speed := by
  unfold Entity.Update
  simp only []
  split_ifs <;> rfl

/-! ## Vectors over the reals -/

theorem Vector.Length_nonneg (v : Vector ℝ) : 0 ≤ v.Length := Real.sqrt_nonneg _

theorem Vector.Length_sq (v : Vector ℝ) : v.Length * v.Length = v.X * v.X + v.Y * v.Y :=
  Real.mul_self_sqrt (by nlinarith [mul_self_nonneg v.X, mul_self_nonneg v.Y])

theorem Vector.Length_Sub_comm (a b : Vector ℝ) : (a.Sub b).Length = (b.Sub a).Length := by
  simp only [Vector.Length, Vector.Sub, sqrt_real]
  congr 1
  ring

theorem Vector.Length_eq_zero (v : Vector ℝ) : v.Length = 0 ↔ v.X = 0 ∧ v.Y = 0 := by
  constructor
  · intro h
    have h2 := Vector.Length_sq v
    rw [h] at h2
    constructor <;> nlinarith [mul_self_nonneg v.X, mul_self_nonneg v.Y]
  · rintro ⟨hx, hy⟩
    simp [Vector.Length, sqrt_real, hx, hy]

theorem Vector.Length_Mul (v : Vector ℝ) (s : ℝ) : (v.Mul s).Length = v.Length * |s| := by
  have h : (v.Mul s).X * (v.Mul s).X + (v.Mul s).Y * (v.Mul s).Y
      = (v.Length * |s|) * (v.Length * |s|) := by
    have := Vector.Length_sq v
    have hs : |s| * |s| = s * s := abs_mul_abs_self s
    simp only [Vector.Mul]
    calc v.X * s * (v.X * s) + v.Y * s * (v.Y * s) = (v.X * v.X + v.Y * v.Y) * (s * s) := by ring
      _ = (v.Length * v.Length) * (|s| * |s|) := by rw [this, hs]
      _ = _ := by ring
  unfold Vector.Length at h ⊢
  rw [sqrt_real] at *
  rw [h]
  exact Real.sqrt_mul_self (mul_nonneg (Real.sqrt_nonneg _) (abs_nonneg s))

theorem Vector.Normalize_of_ne (v : Vector ℝ) (h : v.Length ≠ 0) :
    v.Normalize = v.Mul (1 / v.Length) := by
  simp only [Vector.Normalize, h, if_false, Vector.Div, Vector.Mul]
  congr 1 <;> ring

theorem Vector.Length_Normalize (v : Vector ℝ) (h : v.Length ≠ 0) : v.Normalize.Length = 1 := by
  rw [Vector.Normalize_of_ne v h, Vector.Length_Mul]
  have hpos : 0 < v.Length := lt_of_le_of_ne (Vector.Length_nonneg v) (Ne.symm h)
  rw [abs_of_pos (by positivity)]
  field_simp

/-- C1. After `Entity.Update` both coordinates lie in `[10, 4990]`; on an axis whose
coordinate was changed by the call the velocity component is `0`; an axis whose
coordinate was already in `[10, 4990]` keeps its coordinate and its velocity
component. -/
theorem Entity_Update_clamps (e : Entity ℝ) :
    (10 ≤ e.Update.Position.X ∧ e.Update.Position.X ≤ 4990) ∧
    (10 ≤ e.Update.Position.Y ∧ e.Update.Position.Y ≤ 4990) ∧
    (e.Update.Position.X ≠ e.Position.X → e.Update.Velocity.X = 0) ∧
    (e.Update.Position.Y ≠ e.Position.Y → e.Update.Velocity.Y = 0) ∧
    (10 ≤ e.Position.X ∧ e.Position.X ≤ 4990 →
      e.Update.Position.X = e.Position.X ∧ e.Update.Velocity.X = e.Velocity.X) ∧
    (10 ≤ e.Position.Y ∧ e.Position.Y ≤ 4990 →
      e.Update.Position.Y = e.Position.Y ∧ e.Update.Velocity.Y = e.Velocity.Y) := by
  rw [Entity.Update_Position_X, Entity.Update_Position_Y, Entity.Update_Velocity_X,
    Entity.Update_Velocity_Y]
  refine ⟨?_, ?_, ?_, ?_, ?_, ?_⟩
  · split_ifs <;> constructor <;> linarith
  · split_ifs <;> constructor <;> linarith
  · split_ifs <;> simp
  · split_ifs <;> simp
  · rintro ⟨h1, h2⟩
    rw [if_neg (not_lt.mpr h1), if_neg (not_lt.mpr h2), if_neg (not_lt.mpr h1),
      if_neg (not_lt.mpr h2)]
    exact ⟨rfl, rfl⟩
  · rintro ⟨h1, h2⟩
    rw [if_neg (not_lt.mpr h1), if_neg (not_lt.mpr h2), if_neg (not_lt.mpr h1),
      if_neg (not_lt.mpr h2)]
    exact ⟨rfl, rfl⟩

theorem Entity_Update_clamps_witness :
    (Entity.Update (⟨⟨5, 6000⟩, ⟨1, 1⟩, 3⟩ : Entity ℝ)).Velocity.X = 0 ∧
    (Entity.Update (⟨⟨5, 6000⟩, ⟨1, 1⟩, 3⟩ : Entity ℝ)).Velocity.Y = 0 ∧
    (Entity.Update (⟨⟨20, 30⟩, ⟨1, 1⟩, 3⟩ : Entity ℝ)).Position.X = 20 :=
  ⟨(Entity_Update_clamps ⟨⟨5, 6000⟩, ⟨1, 1⟩, 3⟩).2.2.1 (by norm_num [Entity.Update_Position_X]),
   (Entity_Update_clamps ⟨⟨5, 6000⟩, ⟨1, 1⟩, 3⟩).2.2.2.1 (by norm_num [Entity.Update_Position_Y]),
   ((Entity_Update_clamps ⟨⟨20, 30⟩, ⟨1, 1⟩, 3⟩).2.2.2.2.1 ⟨by norm_num, by norm_num⟩).1⟩

/-! ## The projectile loop -/

theorem Projectile.ShouldBeRemoved_iff (p : Projectile ℝ) :
    p.ShouldBeRemoved = true ↔ p.inArena = false := by
  simp only [Projectile.ShouldBeRemoved, Projectile.inArena, Bool.or_eq_true, decide_eq_true_eq,
    decide_eq_false_iff_not, not_and_or, not_le, gt_iff_lt]
  tauto

theorem Game.projectileStep_at (g : Game ℝ) (pre : List (Projectile ℝ)) (p : Projectile ℝ)
    (suf : List (Projectile ℝ)) (h : g.Projectiles = pre ++ p :: suf) :
    ∃ g1, g.projectileStep pre.length = some g1 ∧
      g1.Projectiles = (if p.Update.ShouldBeRemoved then pre ++ suf else pre ++ p.Update :: suf) ∧
      g1.Player.toEntity = g.Player.toEntity ∧
      g1.Player.Life = (if p.Update.CollidesWith g.Player.toEntity then g.Player.Life - 10 else g.Player.Life) := by
  have hget : g.Projectiles[pre.length]? = some p := by
    rw [h, List.getElem?_append_right (le_refl _)]
    simp
  unfold Game.projectileStep
  rw [hget]
  simp only [h]
  by_cases hr : p.Update.ShouldBeRemoved = true <;> by_cases hc : p.Update.CollidesWith g.Player.toEntity = true <;>
    simp [hr, hc]


theorem Game.projectileLoop_append (pre : List (Projectile ℝ)) :
    ∀ (g : Game ℝ) (suf : List (Projectile ℝ)), g.Projectiles = pre ++ suf →
      ∃ g1, g.projectileLoop pre.length = some g1 ∧
        g1.Projectiles = projectilesAfterTick pre ++ suf ∧
        g.projectileVisits pre.length = pre.reverse := by
  induction pre using List.reverseRecOn with
  | nil =>
    intro g suf h
    exact ⟨g, rfl, by simpa [projectilesAfterTick] using h, rfl⟩
  | append_singleton pre p ih =>
    intro g suf h
    have h1 : g.Projectiles = pre ++ p :: suf := by simpa using h
    obtain ⟨g1, hstep, hps, -, -⟩ := Game.projectileStep_at g pre p suf h1
    have hget : g.Projectiles[pre.length]? = some p := by
      rw [h1, List.getElem?_append_right (le_refl _)]
      simp
    rw [List.length_append, List.length_singleton]
    by_cases hr : p.Update.ShouldBeRemoved = true
    · rw [if_pos hr] at hps
      obtain ⟨g2, hloop, hps2, hvis⟩ := ih g1 suf hps
      refine ⟨g2, ?_, ?_, ?_⟩
      · simp [Game.projectileLoop, hstep, hloop]
      · have hout : Projectile.inArena p.Update = false := (Projectile.ShouldBeRemoved_iff _).mp hr
        simp [hps2, projectilesAfterTick, List.filter_append, hout]
      · simp only [Game.projectileVisits, hget, hstep, hvis, List.reverse_append,
          List.reverse_singleton, List.singleton_append]
    · rw [if_neg hr] at hps
      obtain ⟨g2, hloop, hps2, hvis⟩ := ih g1 (p.Update :: suf) hps
      refine ⟨g2, ?_, ?_, ?_⟩
      · simp [Game.projectileLoop, hstep, hloop]
      · have hin : Projectile.inArena p.Update = true := by
          cases hc : Projectile.inArena p.Update
          · exact absurd ((Projectile.ShouldBeRemoved_iff _).mpr hc) hr
          · rfl
        simp [hps2, projectilesAfterTick, List.filter_append, hin]
      · simp only [Game.projectileVisits, hget, hstep, hvis, List.reverse_append,
          List.reverse_singleton, List.singleton_append]

/-- C2. The backward removal loop of `Game.Update` does not go out of range, reads
every projectile present at its start exactly once (the log of the elements it
reads is the start list reversed), and leaves `g.Projectiles` equal to the start
list advanced by `Projectile.Update` and then filtered, in order, to the
projectiles with `0 ≤ X ≤ 5000` and `0 ≤ Y ≤ 5000`; a projectile whose advanced
position is outside that square is not in the list after the loop. -/
theorem Game_projectileLoop_filters (g : Game ℝ) :
    ∃ g1, g.projectileLoop g.Projectiles.length = some g1 ∧
      g1.Projectiles = projectilesAfterTick g.Projectiles ∧
      g.projectileVisits g.Projectiles.length = g.Projectiles.reverse ∧
      (∀ q, q ∈ g1.Projectiles ↔
        (∃ p ∈ g.Projectiles, q = p.Update) ∧
          0 ≤ q.Position.X ∧ q.Position.X ≤ 5000 ∧ 0 ≤ q.Position.Y ∧ q.Position.Y ≤ 5000) ∧
      (∀ p ∈ g.Projectiles,
        ¬ (0 ≤ p.Update.Position.X ∧ p.Update.Position.X ≤ 5000 ∧
            0 ≤ p.Update.Position.Y ∧ p.Update.Position.Y ≤ 5000) →
          p.Update ∉ g1.Projectiles) := by
  obtain ⟨g1, hloop, hps, hvis⟩ := Game.projectileLoop_append g.Projectiles g [] (by simp)
  have hmem : ∀ q, q ∈ g1.Projectiles ↔
      (∃ p ∈ g.Projectiles, q = p.Update) ∧
        0 ≤ q.Position.X ∧ q.Position.X ≤ 5000 ∧ 0 ≤ q.Position.Y ∧ q.Position.Y ≤ 5000 := by
    intro q
    rw [hps, List.append_nil, projectilesAfterTick, List.mem_filter, List.mem_map]
    simp only [Projectile.inArena, decide_eq_true_eq]
    constructor
    · rintro ⟨⟨p, hp, rfl⟩, hq⟩
      exact ⟨⟨p, hp, rfl⟩, hq⟩
    · rintro ⟨⟨p, hp, rfl⟩, hq⟩
      exact ⟨⟨p, hp, rfl⟩, hq⟩
  refine ⟨g1, hloop, by simpa using hps, hvis, hmem, ?_⟩
  intro p _ hout hin
  exact hout ((hmem _).mp hin).2

theorem Game_projectileLoop_filters_witness :
    ∃ g1, Game.projectileLoop 1
        ({ (Game.zero : Game ℝ) with Projectiles := [⟨⟨4990, 100⟩, ⟨20, 0⟩⟩] }) = some g1 ∧
      g1.Projectiles = [] := by
  obtain ⟨g1, h1, h2, -, -, h5⟩ := Game_projectileLoop_filters
    ({ (Game.zero : Game ℝ) with Projectiles := [⟨⟨4990, 100⟩, ⟨20, 0⟩⟩] })
  refine ⟨g1, h1, ?_⟩
  have hout := h5 ⟨⟨4990, 100⟩, ⟨20, 0⟩⟩ (by simp)
    (by norm_num [Projectile.Update, Vector.Add])
  rw [h2] at hout ⊢
  simp only [projectilesAfterTick, List.map_cons, List.map_nil] at hout ⊢
  rw [List.filter_cons] at hout ⊢
  split_ifs at hout ⊢ with hc
  · simp at hout
  · rfl

/-! ## The branches of Enemy.Update -/

theorem Enemy.CollidesWith_iff (e : Enemy ℝ) (p : Player ℝ) :
    e.CollidesWith p = true ↔ (p.Position.Sub e.Position).Length < 20 := by
  simp only [Enemy.CollidesWith, decide_eq_true_eq, Vector.Length_Sub_comm e.Position p.Position]

theorem Enemy.Update_melee (e : Enemy ℝ) (p : Player ℝ) (g : Game ℝ) (now : Time)
    (hd : (p.Position.Sub e.toEntity.Update.Position).Length < 20) :
    e.Update p g now =
      if Time.Since now e.LastShotTime > 500 * Millisecond then
        ({ Position := e.toEntity.Update.Position, Velocity := ⟨0, 0⟩,
           Speed := e.toEntity.Update.Speed, Origin := e.Origin, Typ := e.Typ, State := e.State,
           Bullets := e.Bullets, LastShotTime := now },
         { toEntity := p.toEntity, Life := p.Life - 50 }, g)
      else
        ({ Position := e.toEntity.Update.Position, Velocity := ⟨0, 0⟩,
           Speed := e.toEntity.Update.Speed, Origin := e.Origin, Typ := e.Typ, State := e.State,
           Bullets := e.Bullets, LastShotTime := e.LastShotTime }, p, g) := by
  unfold Enemy.Update
  simp only [Enemy.CollidesWith_iff]
  rw [if_pos hd]

theorem Enemy.Update_close (e : Enemy ℝ) (p : Player ℝ) (g : Game ℝ) (now : Time)
    (hlo : 20 ≤ (p.Position.Sub e.toEntity.Update.Position).Length)
    (hhi : (p.Position.Sub e.toEntity.Update.Position).Length < 400) :
    e.Update p g now =
      ({ Position := e.toEntity.Update.Position.Add
           ((p.Position.Sub e.toEntity.Update.Position).Normalize.Mul e.toEntity.Update.Speed),
         Velocity := (p.Position.Sub e.toEntity.Update.Position).Normalize.Mul
           e.toEntity.Update.Speed,
         Speed := e.toEntity.Update.Speed, Origin := e.Origin, Typ := e.Typ, State := "CHASE",
         Bullets := e.Bullets, LastShotTime := e.LastShotTime }, p, g) := by
  unfold Enemy.Update
  simp only [Enemy.CollidesWith_iff]
  rw [if_neg (not_lt.mpr hlo), if_pos (lt_trans hhi (by norm_num)), if_pos hhi]

theorem Enemy.Update_range (e : Enemy ℝ) (p : Player ℝ) (g : Game ℝ) (now : Time)
    (hlo : 400 ≤ (p.Position.Sub e.toEntity.Update.Position).Length)
    (hhi : (p.Position.Sub e.toEntity.Update.Position).Length < 800) :
    e.Update p g now =
      if e.Bullets > 0 ∧ Time.Since now e.LastShotTime > g.ShootingCoolDown then
        ({ Position := e.toEntity.Update.Position, Velocity := ⟨0, 0⟩,
           Speed := e.toEntity.Update.Speed, Origin := e.Origin, Typ := e.Typ, State := "CHASE",
           Bullets := e.Bullets - 1, LastShotTime := now }, p,
         { g with Projectiles := g.Projectiles ++
             [{ Position := e.toEntity.Update.Position,
                Velocity := (p.Position.Sub e.toEntity.Update.Position).Normalize.Mul 20 }] })
      else
        ({ Position := e.toEntity.Update.Position, Velocity := ⟨0, 0⟩,
           Speed := e.toEntity.Update.Speed, Origin := e.Origin, Typ := e.Typ, State := "CHASE",
           Bullets := e.Bullets, LastShotTime := e.LastShotTime }, p, g) := by
  unfold Enemy.Update
  simp only [Enemy.CollidesWith_iff]
  rw [if_neg (not_lt.mpr (le_trans (by norm_num) hlo)), if_pos hhi, if_neg (not_lt.mpr hlo)]
  by_cases hb : e.Bullets > 0
  · by_cases ht : Time.Since now e.LastShotTime > g.ShootingCoolDown
    · rw [if_pos hb, if_pos ht, if_pos ⟨hb, ht⟩]
      have hne : ¬ e.Bullets = 0 := by omega
      simp only [Enemy.Shoot, if_neg hne]
    · rw [if_pos hb, if_neg ht, if_neg (fun h => ht h.2)]
  · rw [if_neg hb, if_neg (fun h => hb h.1)]

theorem Enemy.Update_far_guard (e : Enemy ℝ) (p : Player ℝ) (g : Game ℝ) (now : Time)
    (hd : 800 ≤ (p.Position.Sub e.toEntity.Update.Position).Length) (ht : e.Typ = GUARD) :
    e.Update p g now =
      if (e.toEntity.Update.Position.Sub e.Origin).Length > 5 then
        ({ Position := e.toEntity.Update.Position.Add
             ((e.Origin.Sub e.toEntity.Update.Position).Normalize.Mul
               (e.toEntity.Update.Speed / 2)),
           Velocity := (e.Origin.Sub e.toEntity.Update.Position).Normalize.Mul
             (e.toEntity.Update.Speed / 2),
           Speed := e.toEntity.Update.Speed, Origin := e.Origin, Typ := e.Typ, State := "PATROL",
           Bullets := e.Bullets, LastShotTime := e.LastShotTime }, p, g)
      else
        ({ Position := e.Origin, Velocity := ⟨0, 0⟩, Speed := e.toEntity.Update.Speed,
           Origin := e.Origin, Typ := e.Typ, State := "IDLE", Bullets := 100,
           LastShotTime := e.LastShotTime }, p, g) := by
  unfold Enemy.Update
  simp only [Enemy.CollidesWith_iff]
  rw [if_neg (not_lt.mpr (le_trans (by norm_num) hd)), if_neg (not_lt.mpr hd), if_pos ht]

theorem Enemy.Update_far_other (e : Enemy ℝ) (p : Player ℝ) (g : Game ℝ) (now : Time)
    (hd : 800 ≤ (p.Position.Sub e.toEntity.Update.Position).Length) (ht : e.Typ ≠ GUARD) :
    e.Update p g now =
      ({ Position := e.toEntity.Update.Position, Velocity := ⟨0, 0⟩,
         Speed := e.toEntity.Update.Speed, Origin := e.Origin, Typ := e.Typ, State := e.State,
         Bullets := e.Bullets, LastShotTime := e.LastShotTime }, p, g) := by
  unfold Enemy.Update
  simp only [Enemy.CollidesWith_iff]
  rw [if_neg (not_lt.mpr (le_trans (by norm_num) hd)), if_neg (not_lt.mpr hd), if_neg ht]

theorem Entity.Update_of_inside (e : Entity ℝ) (hx1 : 10 ≤ e.Position.X)
    (hx2 : e.Position.X ≤ 4990) (hy1 : 10 ≤ e.Position.Y) (hy2 : e.Position.Y ≤ 4990) :
    e.Update = e := by
  unfold Entity.Update
  simp only []
  split_ifs <;> first | rfl | (exfalso; simp_all; linarith)

theorem Vector.Mul_Mul (v : Vector ℝ) (a b : ℝ) : (v.Mul a).Mul b = v.Mul (a * b) := by
  simp only [Vector.Mul, mul_assoc]

theorem Vector.Length_of_sq (v : Vector ℝ) (d : ℝ) (hd : 0 ≤ d)
    (h : v.X * v.X + v.Y * v.Y = d * d) : v.Length = d := by
  unfold Vector.Length
  rw [sqrt_real, h]
  exact Real.sqrt_mul_self hd

/-- C3. With the clamped enemy at distance `d` from the player, `400 ≤ d < 800`:
if `Bullets > 0` and the shot cooldown has elapsed, `Enemy.Update` appends exactly
one projectile, placed at the clamped enemy position, whose velocity has length
`20` and is a positive multiple of (player position − enemy position); `Bullets`
drops by one, `LastShotTime` becomes `now`, `State` becomes `"CHASE"` and the
position stays the clamped one.  If `Bullets = 0` or the cooldown has not elapsed,
no projectile is appended and `Bullets` is unchanged. -/
theorem Enemy_Update_fires (e : Enemy ℝ) (p : Player ℝ) (g : Game ℝ) (now : Time)
    (hlo : 400 ≤ (p.Position.Sub e.toEntity.Update.Position).Length)
    (hhi : (p.Position.Sub e.toEntity.Update.Position).Length < 800) :
    (0 < e.Bullets → Time.Since now e.LastShotTime > g.ShootingCoolDown →
      (∃ v : Vector ℝ,
        (e.Update p g now).2.2.Projectiles =
            g.Projectiles ++ [{ Position := e.toEntity.Update.Position, Velocity := v }] ∧
          v.Length = 20 ∧
          ∃ k : ℝ, 0 < k ∧ v = (p.Position.Sub e.toEntity.Update.Position).Mul k) ∧
      (e.Update p g now).1.Bullets = e.Bullets - 1 ∧
      (e.Update p g now).1.LastShotTime = now ∧
      (e.Update p g now).1.State = "CHASE" ∧
      (e.Update p g now).1.Position = e.toEntity.Update.Position) ∧
    (e.Bullets = 0 ∨ ¬ Time.Since now e.LastShotTime > g.ShootingCoolDown →
      (e.Update p g now).2.2.Projectiles = g.Projectiles ∧
      (e.Update p g now).1.Bullets = e.Bullets) := by
  rw [Enemy.Update_range e p g now hlo hhi]
  constructor
  · intro hb ht
    rw [if_pos ⟨hb, ht⟩]
    have hpos : 0 < (p.Position.Sub e.toEntity.Update.Position).Length := by linarith
    have hne : (p.Position.Sub e.toEntity.Update.Position).Length ≠ 0 := ne_of_gt hpos
    refine ⟨⟨_, rfl, ?_, 1 / (p.Position.Sub e.toEntity.Update.Position).Length * 20, ?_, ?_⟩,
      rfl, rfl, rfl, rfl⟩
    · rw [Vector.Length_Mul, Vector.Length_Normalize _ hne]
      norm_num
    · positivity
    · rw [Vector.Normalize_of_ne _ hne, Vector.Mul_Mul]
  · intro h
    have hn : ¬ (e.Bullets > 0 ∧ Time.Since now e.LastShotTime > g.ShootingCoolDown) := by
      rintro ⟨hb, ht⟩
      rcases h with h | h
      · omega
      · exact h ht
    rw [if_neg hn]
    exact ⟨rfl, rfl⟩

theorem Enemy_Update_fires_witness :
    (Enemy.Update (Enemy.spawned 100 100) (Player.fresh 600 100) (Game.zero : Game ℝ)
      1000).1.Bullets = 99 := by
  have hc : (Enemy.spawned (100 : ℝ) 100).toEntity.Update = (Enemy.spawned (100 : ℝ) 100).toEntity :=
    Entity.Update_of_inside _ (by norm_num [Enemy.spawned]) (by norm_num [Enemy.spawned])
      (by norm_num [Enemy.spawned]) (by norm_num [Enemy.spawned])
  have hlen : ((Player.fresh (600 : ℝ) 100).Position.Sub
      (Enemy.spawned (100 : ℝ) 100).toEntity.Update.Position).Length = 500 := by
    rw [hc]
    exact Vector.Length_of_sq _ 500 (by norm_num)
      (by norm_num [Player.fresh, Enemy.spawned, Vector.Sub])
  exact ((Enemy_Update_fires (Enemy.spawned 100 100) (Player.fresh 600 100) Game.zero 1000
    (by rw [hlen]; norm_num) (by rw [hlen]; norm_num)).1 (by decide) (by decide)).2.1

/-! ## Melee contact -/

/-- C4. With the clamped enemy at distance `< 20` from the player, `Enemy.Update`
keeps `State`, `Bullets`, `Origin` and `Type`, sets `Velocity` to `(0,0)`, leaves
the position at the clamped one and appends no projectile; the player's `Life`
becomes `Life - 50` and the enemy's `LastShotTime` becomes `now` when
`time.Since(LastShotTime) > 500ms`, and otherwise both are unchanged. -/
theorem Enemy_Update_contact (e : Enemy ℝ) (p : Player ℝ) (g : Game ℝ) (now : Time)
    (hd : (p.Position.Sub e.toEntity.Update.Position).Length < 20) :
    (e.Update p g now).1.State = e.State ∧
    (e.Update p g now).1.Bullets = e.Bullets ∧
    (e.Update p g now).1.Origin = e.Origin ∧
    (e.Update p g now).1.Typ = e.Typ ∧
    (e.Update p g now).1.Velocity = ⟨0, 0⟩ ∧
    (e.Update p g now).1.Position = e.toEntity.Update.Position ∧
    (e.Update p g now).2.2.Projectiles = g.Projectiles ∧
    (e.Update p g now).2.1.toEntity = p.toEntity ∧
    (Time.Since now e.LastShotTime > 500 * Millisecond →
      (e.Update p g now).2.1.Life = p.Life - 50 ∧ (e.Update p g now).1.LastShotTime = now) ∧
    (¬ Time.Since now e.LastShotTime > 500 * Millisecond →
      (e.Update p g now).2.1.Life = p.Life ∧
      (e.Update p g now).1.LastShotTime = e.LastShotTime) := by
  rw [Enemy.Update_melee e p g now hd]
  by_cases ht : Time.Since now e.LastShotTime > 500 * Millisecond
  · rw [if_pos ht]
    exact ⟨rfl, rfl, rfl, rfl, rfl, rfl, rfl, rfl, fun _ => ⟨rfl, rfl⟩, fun h => absurd ht h⟩
  · rw [if_neg ht]
    exact ⟨rfl, rfl, rfl, rfl, rfl, rfl, rfl, rfl, fun h => absurd h ht, fun _ => ⟨rfl, rfl⟩⟩

theorem Enemy_Update_contact_witness :
    (Enemy.Update (Enemy.spawned 100 100) (Player.fresh 100 100) (Game.zero : Game ℝ)
      1000000000).2.1.Life = 50 := by
  have hc : (Enemy.spawned (100 : ℝ) 100).toEntity.Update = (Enemy.spawned (100 : ℝ) 100).toEntity :=
    Entity.Update_of_inside _ (by norm_num [Enemy.spawned]) (by norm_num [Enemy.spawned])
      (by norm_num [Enemy.spawned]) (by norm_num [Enemy.spawned])
  have hlen : ((Player.fresh (100 : ℝ) 100).Position.Sub
      (Enemy.spawned (100 : ℝ) 100).toEntity.Update.Position).Length = 0 := by
    rw [hc]
    exact Vector.Length_of_sq _ 0 (le_refl _)
      (by norm_num [Player.fresh, Enemy.spawned, Vector.Sub])
  exact ((Enemy_Update_contact (Enemy.spawned 100 100) (Player.fresh 100 100) Game.zero
    1000000000 (by rw [hlen]; norm_num)).2.2.2.2.2.2.2.2.1 (by decide)).1

/-! ## Spacing of contact damage -/

theorem Time.lt_sub_of_lt_Since (now t : Time) (d : Duration) (hd : 0 ≤ d)
    (h : Time.Since now t > d) : now - t > d := by
  unfold Time.Since Time.Sub at h
  split_ifs at h with h1 h2
  · exact lt_trans h h1
  · have : minDuration < 0 := by decide
    exact absurd (lt_trans this (lt_of_le_of_lt hd h)) (lt_irrefl _)
  · exact h

/-- What a single `Enemy.Update` does to `LastShotTime` and `Life`: the time stamp
is kept or set to `now`, and `Life` is kept unless the contact branch fired with
its cooldown elapsed. -/
theorem Enemy.Update_stamp (e : Enemy ℝ) (p : Player ℝ) (g : Game ℝ) (now : Time) :
    ((e.Update p g now).1.LastShotTime = e.LastShotTime ∨
      (e.Update p g now).1.LastShotTime = now) ∧
    ((e.Update p g now).2.1.Life = p.Life ∨
      ((e.Update p g now).2.1.Life = p.Life - 50 ∧ (e.Update p g now).1.LastShotTime = now ∧
        Time.Since now e.LastShotTime > 500 * Millisecond)) := by
  by_cases h20 : (p.Position.Sub e.toEntity.Update.Position).Length < 20
  · rw [Enemy.Update_melee e p g now h20]
    by_cases ht : Time.Since now e.LastShotTime > 500 * Millisecond
    · rw [if_pos ht]
      exact ⟨Or.inr rfl, Or.inr ⟨rfl, rfl, ht⟩⟩
    · rw [if_neg ht]
      exact ⟨Or.inl rfl, Or.inl rfl⟩
  · by_cases h400 : (p.Position.Sub e.toEntity.Update.Position).Length < 400
    · rw [Enemy.Update_close e p g now (not_lt.mp h20) h400]
      exact ⟨Or.inl rfl, Or.inl rfl⟩
    · by_cases h800 : (p.Position.Sub e.toEntity.Update.Position).Length < 800
      · rw [Enemy.Update_range e p g now (not_lt.mp h400) h800]
        split_ifs
        · exact ⟨Or.inr rfl, Or.inl rfl⟩
        · exact ⟨Or.inl rfl, Or.inl rfl⟩
      · by_cases hg : e.Typ = GUARD
        · rw [Enemy.Update_far_guard e p g now (not_lt.mp h800) hg]
          split_ifs
          · exact ⟨Or.inl rfl, Or.inl rfl⟩
          · exact ⟨Or.inl rfl, Or.inl rfl⟩
        · rw [Enemy.Update_far_other e p g now (not_lt.mp h800) hg]
          exact ⟨Or.inl rfl, Or.inl rfl⟩

theorem Enemy.deducts_stamp (e : Enemy ℝ) (c : EnemyCall ℝ) (h : e.deducts c) :
    (e.Update c.p c.g c.now).1.LastShotTime = c.now ∧ c.now - e.LastShotTime > 500 * Millisecond := by
  unfold Enemy.deducts at h
  rcases (Enemy.Update_stamp e c.p c.g c.now).2 with h1 | ⟨_, h2, h3⟩
  · rw [h1] at h
    exact absurd h (by linarith)
  · exact ⟨h2, Time.lt_sub_of_lt_Since _ _ _ (by decide) h3⟩

theorem Enemy.runCalls_deducts_after (cs : List (EnemyCall ℝ)) :
    ∀ (e : Enemy ℝ) (t : Time), t ≤ e.LastShotTime → (∀ c ∈ cs, t ≤ c.now) →
      ∀ (j : Nat) (cj : EnemyCall ℝ), cs[j]? = some cj → (e.runCalls (cs.take j)).deducts cj →
        cj.now - t > 500 * Millisecond := by
  induction cs with
  | nil => intro e t _ _ j cj hj; simp at hj
  | cons c0 cs ih =>
    intro e t ht hall j cj hj hded
    cases j with
    | zero =>
      simp only [List.getElem?_cons_zero, Option.some.injEq] at hj
      subst hj
      simp only [List.take_zero, Enemy.runCalls] at hded
      have := (Enemy.deducts_stamp e c0 hded).2
      linarith
    | succ j =>
      simp only [List.getElem?_cons_succ] at hj
      simp only [List.take_succ_cons, Enemy.runCalls] at hded
      have h0 : t ≤ c0.now := hall c0 (List.mem_cons_self _ _)
      have ht1 : t ≤ (e.Update c0.p c0.g c0.now).1.LastShotTime := by
        rcases (Enemy.Update_stamp e c0.p c0.g c0.now).1 with h | h <;> rw [h] <;> assumption
      exact ih _ t ht1 (fun c hc => hall c (List.mem_cons_of_mem _ hc)) j cj hj hded

/-- C5. Along any sequence of `Enemy.Update` calls on one enemy at non-decreasing
clock readings, with any players and game states, two calls that each take 50 off
the player's `Life` have clock readings more than 500ms apart. -/
theorem Enemy_contact_damage_spacing (cs : List (EnemyCall ℝ)) (e : Enemy ℝ)
    (hmono : (cs.map EnemyCall.now).Pairwise (fun a b => a ≤ b))
    (i j : Nat) (ci cj : EnemyCall ℝ) (hij : i < j)
    (hi : cs[i]? = some ci) (hj : cs[j]? = some cj)
    (hdi : (e.runCalls (cs.take i)).deducts ci)
    (hdj : (e.runCalls (cs.take j)).deducts cj) :
    cj.now - ci.now > 500 * Millisecond := by
  induction cs generalizing e i j with
  | nil => simp at hi
  | cons c0 cs ih =>
    cases j with
    | zero => omega
    | succ j =>
      simp only [List.getElem?_cons_succ] at hj
      simp only [List.take_succ_cons, Enemy.runCalls] at hdj
      rw [List.map_cons, List.pairwise_cons] at hmono
      cases i with
      | zero =>
        simp only [List.getElem?_cons_zero, Option.some.injEq] at hi
        subst hi
        simp only [List.take_zero, Enemy.runCalls] at hdi
        have hst := (Enemy.deducts_stamp e c0 hdi).1
        refine Enemy.runCalls_deducts_after cs _ c0.now (le_of_eq hst.symm) ?_ j cj hj hdj
        intro c hc
        exact hmono.1 c.now (List.mem_map_of_mem _ hc)
      | succ i =>
        simp only [List.getElem?_cons_succ] at hi
        simp only [List.take_succ_cons, Enemy.runCalls] at hdi
        exact ih _ hmono.2 i j (by omega) hi hj hdi hdj

theorem Enemy_contact_damage_spacing_witness :
    (Enemy.spawned (100 : ℝ) 100).deducts ⟨Player.fresh 100 100, Game.zero, 1000000000⟩ ∧
    ((Enemy.spawned (100 : ℝ) 100).runCalls
        [⟨Player.fresh 100 100, Game.zero, 1000000000⟩]).deducts
      ⟨Player.fresh 100 100, Game.zero, 2000000000⟩ ∧
    (2000000000 : Time) - 1000000000 > 500 * Millisecond := by
  have key : ∀ (L now : Time), Time.Since now L > 500 * Millisecond →
      Enemy.Update ({ Enemy.spawned (100 : ℝ) 100 with LastShotTime := L })
          (Player.fresh 100 100) Game.zero now =
        ({ Enemy.spawned (100 : ℝ) 100 with LastShotTime := now },
          { Player.fresh (100 : ℝ) 100 with Life := 50 }, Game.zero) := by
    intro L now ht
    have hc : ({ Enemy.spawned (100 : ℝ) 100 with LastShotTime := L }).toEntity.Update =
        (Enemy.spawned (100 : ℝ) 100).toEntity :=
      Entity.Update_of_inside _ (by norm_num [Enemy.spawned]) (by norm_num [Enemy.spawned])
        (by norm_num [Enemy.spawned]) (by norm_num [Enemy.spawned])
    have hlen : ((Player.fresh (100 : ℝ) 100).Position.Sub
        ({ Enemy.spawned (100 : ℝ) 100 with LastShotTime := L }).toEntity.Update.Position).Length
          = 0 := by
      rw [hc]
      exact Vector.Length_of_sq _ 0 (le_refl _)
        (by norm_num [Player.fresh, Enemy.spawned, Vector.Sub])
    rw [Enemy.Update_melee _ _ _ _ (by rw [hlen]; norm_num), if_pos ht, hc]
    rfl
  have h1 : Enemy.Update (Enemy.spawned (100 : ℝ) 100) (Player.fresh 100 100) Game.zero
      1000000000 = _ := key Time.zero 1000000000 (by decide)
  have h2 := key 1000000000 2000000000 (by decide)
  have hd1 : (Enemy.spawned (100 : ℝ) 100).deducts
      ⟨Player.fresh 100 100, Game.zero, 1000000000⟩ := by
    show (Enemy.Update (Enemy.spawned (100 : ℝ) 100) (Player.fresh 100 100) Game.zero
      1000000000).2.1.Life = (Player.fresh (100 : ℝ) 100).Life - 50
    rw [h1]
    rfl
  have hd2 : ((Enemy.spawned (100 : ℝ) 100).runCalls
      [⟨Player.fresh 100 100, Game.zero, 1000000000⟩]).deducts
        ⟨Player.fresh 100 100, Game.zero, 2000000000⟩ := by
    show (Enemy.Update (Enemy.Update (Enemy.spawned (100 : ℝ) 100) (Player.fresh 100 100)
      Game.zero 1000000000).1 (Player.fresh 100 100) Game.zero 2000000000).2.1.Life =
        (Player.fresh (100 : ℝ) 100).Life - 50
    rw [h1, h2]
    rfl
  exact ⟨hd1, hd2, Enemy_contact_damage_spacing
    [⟨Player.fresh 100 100, Game.zero, 1000000000⟩, ⟨Player.fresh 100 100, Game.zero, 2000000000⟩]
    (Enemy.spawned 100 100) (by decide) 0 1 _ _ (by decide) rfl rfl hd1 hd2⟩

/-! ## Chasing -/

theorem Vector.Length_Sub_step (a b : Vector ℝ) (s : ℝ) (hne : (b.Sub a).Length ≠ 0)
    (hs : s ≤ (b.Sub a).Length) :
    (b.Sub (a.Add ((b.Sub a).Normalize.Mul s))).Length = (b.Sub a).Length - s := by
  have hpos : 0 < (b.Sub a).Length := lt_of_le_of_ne (Vector.Length_nonneg _) (Ne.symm hne)
  have hvec : b.Sub (a.Add ((b.Sub a).Normalize.Mul s)) =
      (b.Sub a).Mul (1 - s / (b.Sub a).Length) := by
    rw [Vector.Normalize_of_ne _ hne]
    generalize (b.Sub a).Length = d at hne
    simp only [Vector.Sub, Vector.Add, Vector.Mul, Vector.mk.injEq]
    constructor <;> field_simp <;> ring
  rw [hvec, Vector.Length_Mul]
  have h1 : 0 ≤ 1 - s / (b.Sub a).Length := by
    rw [sub_nonneg, div_le_one hpos]
    exact hs
  rw [abs_of_nonneg h1]
  field_simp

/-- C6. With the clamped enemy at distance `d` from the player, `20 ≤ d < 800`,
`Enemy.Update` sets `State` to `"CHASE"`.  When moreover `d < 400` the enemy moves
from its clamped position by `Speed` times the unit vector toward the player, so
that for `0 ≤ Speed ≤ d` the new distance to the player is `d - Speed` (`d - 6`
when `Speed = 6`); no projectile is appended and `Bullets` and the player's `Life`
are unchanged. -/
theorem Enemy_Update_chases (e : Enemy ℝ) (p : Player ℝ) (g : Game ℝ) (now : Time)
    (hlo : 20 ≤ (p.Position.Sub e.toEntity.Update.Position).Length)
    (hhi : (p.Position.Sub e.toEntity.Update.Position).Length < 800) :
    (e.Update p g now).1.State = "CHASE" ∧
    ((p.Position.Sub e.toEntity.Update.Position).Length < 400 →
      (e.Update p g now).1.Position =
        e.toEntity.Update.Position.Add
          ((p.Position.Sub e.toEntity.Update.Position).Normalize.Mul e.Speed) ∧
      (p.Position.Sub e.toEntity.Update.Position).Normalize.Length = 1 ∧
      (∃ k : ℝ, 0 < k ∧ (p.Position.Sub e.toEntity.Update.Position).Normalize =
        (p.Position.Sub e.toEntity.Update.Position).Mul k) ∧
      (0 ≤ e.Speed → e.Speed ≤ (p.Position.Sub e.toEntity.Update.Position).Length →
        (p.Position.Sub (e.Update p g now).1.Position).Length =
          (p.Position.Sub e.toEntity.Update.Position).Length - e.Speed) ∧
      (e.Speed = 6 →
        (p.Position.Sub (e.Update p g now).1.Position).Length =
          (p.Position.Sub e.toEntity.Update.Position).Length - 6) ∧
      (e.Update p g now).2.2.Projectiles = g.Projectiles ∧
      (e.Update p g now).1.Bullets = e.Bullets ∧
      (e.Update p g now).2.1.Life = p.Life) := by
  have hpos : 0 < (p.Position.Sub e.toEntity.Update.Position).Length := by linarith
  have hne : (p.Position.Sub e.toEntity.Update.Position).Length ≠ 0 := ne_of_gt hpos
  constructor
  · by_cases h400 : (p.Position.Sub e.toEntity.Update.Position).Length < 400
    · rw [Enemy.Update_close e p g now hlo h400]
    · rw [Enemy.Update_range e p g now (not_lt.mp h400) hhi]
      split_ifs <;> rfl
  · intro h400
    rw [Enemy.Update_close e p g now hlo h400, Entity.Update_Speed]
    refine ⟨rfl, Vector.Length_Normalize _ hne,
      ⟨1 / (p.Position.Sub e.toEntity.Update.Position).Length, by positivity,
        Vector.Normalize_of_ne _ hne⟩, ?_, ?_, rfl, rfl, rfl⟩
    · intro _ hs
      exact Vector.Length_Sub_step _ _ _ hne hs
    · intro h6
      rw [h6]
      exact Vector.Length_Sub_step _ _ _ hne (by linarith)

theorem Enemy_Update_chases_witness :
    ((Player.fresh (200 : ℝ) 100).Position.Sub
      (Enemy.Update (Enemy.spawned 100 100) (Player.fresh 200 100) (Game.zero : Game ℝ)
        1000).1.Position).Length = 94 := by
  have hc : (Enemy.spawned (100 : ℝ) 100).toEntity.Update = (Enemy.spawned (100 : ℝ) 100).toEntity :=
    Entity.Update_of_inside _ (by norm_num [Enemy.spawned]) (by norm_num [Enemy.spawned])
      (by norm_num [Enemy.spawned]) (by norm_num [Enemy.spawned])
  have hlen : ((Player.fresh (200 : ℝ) 100).Position.Sub
      (Enemy.spawned (100 : ℝ) 100).toEntity.Update.Position).Length = 100 := by
    rw [hc]
    exact Vector.Length_of_sq _ 100 (by norm_num)
      (by norm_num [Player.fresh, Enemy.spawned, Vector.Sub])
  have h := ((Enemy_Update_chases (Enemy.spawned 100 100) (Player.fresh 200 100) Game.zero 1000
    (by rw [hlen]; norm_num) (by rw [hlen]; norm_num)).2 (by rw [hlen]; norm_num)).2.2.2.2.1 rfl
  rw [h, hlen]
  norm_num

/-! ## Patrolling back to the origin -/

theorem Vector.Normalize_of_Length (v : Vector ℝ) (d : ℝ) (hd : 0 < d) (h : v.Length = d) :
    v.Normalize = ⟨v.X / d, v.Y / d⟩ := by
  simp only [Vector.Normalize, h, ne_of_gt hd, if_false, Vector.Div]

theorem Enemy.spawned_clamp :
    (Enemy.spawned (0 : ℝ) 10).toEntity.Update = ⟨⟨10, 10⟩, ⟨0, 0⟩, 6⟩ := by
  norm_num [Entity.Update, Enemy.spawned]

theorem Enemy.nearWall_clamp :
    (Enemy.nearWall : Enemy ℝ).toEntity.Update = ⟨⟨10, 10⟩, ⟨0, 0⟩, 6⟩ := by
  norm_num [Entity.Update, Enemy.nearWall]

/-- An enemy whose clamped position is `(10, 10)` and whose origin is `(0, 10)`,
with the player at `(2000, 10)`, ends the call at `(7, 10)` in state `"PATROL"`. -/
theorem Enemy.Update_wall_patrol (e : Enemy ℝ) (p : Player ℝ) (g : Game ℝ) (now : Time)
    (hc : e.toEntity.Update = ⟨⟨10, 10⟩, ⟨0, 0⟩, 6⟩) (ho : e.Origin = ⟨0, 10⟩)
    (hg : e.Typ = GUARD) (hp : p.Position = ⟨2000, 10⟩) :
    (e.Update p g now).1 =
      { Position := ⟨7, 10⟩, Velocity := ⟨-3, 0⟩, Speed := 6, Origin := ⟨0, 10⟩, Typ := GUARD,
        State := "PATROL", Bullets := e.Bullets, LastShotTime := e.LastShotTime } := by
  have hd : (p.Position.Sub e.toEntity.Update.Position).Length = 1990 := by
    rw [hc, hp]
    exact Vector.Length_of_sq _ 1990 (by norm_num) (by norm_num [Vector.Sub])
  have h1 : (e.toEntity.Update.Position.Sub e.Origin).Length = 10 := by
    rw [hc, ho]
    exact Vector.Length_of_sq _ 10 (by norm_num) (by norm_num [Vector.Sub])
  have h2 : (e.Origin.Sub e.toEntity.Update.Position).Length = 10 := by
    rw [Vector.Length_Sub_comm, h1]
  rw [Enemy.Update_far_guard e p g now (by rw [hd]; norm_num) hg, if_pos (by rw [h1]; norm_num),
    Vector.Normalize_of_Length _ 10 (by norm_num) h2, hc, ho, hg]
  norm_num [Vector.Sub, Vector.Add, Vector.Mul]

/-- C7, as stated, fails: the enemy spawned at `(0, 10)` reaches `nearWall` after one
call, is then 7 > 5 units from its origin with the player 1993 ≥ 800 units away, and
the next call leaves it 7 units from its origin again. -/
theorem Enemy_patrol_not_closer :
    (Enemy.Update (Enemy.spawned 0 10) (Player.fresh 2000 10) (Game.zero : Game ℝ) 0).1 =
      Enemy.nearWall ∧
    (Enemy.nearWall : Enemy ℝ).Typ = GUARD ∧ (Enemy.nearWall : Enemy ℝ).Speed = 6 ∧
    800 ≤ ((Player.fresh (2000 : ℝ) 10).Position.Sub
      (Enemy.nearWall : Enemy ℝ).Position).Length ∧
    5 < ((Enemy.nearWall : Enemy ℝ).Position.Sub (Enemy.nearWall : Enemy ℝ).Origin).Length ∧
    ¬ ((Enemy.Update Enemy.nearWall (Player.fresh 2000 10) (Game.zero : Game ℝ)
          0).1.Position.Sub (Enemy.nearWall : Enemy ℝ).Origin).Length <
        ((Enemy.nearWall : Enemy ℝ).Position.Sub (Enemy.nearWall : Enemy ℝ).Origin).Length := by
  have hfix : (Enemy.Update Enemy.nearWall (Player.fresh 2000 10) (Game.zero : Game ℝ) 0).1 =
      Enemy.nearWall :=
    Enemy.Update_wall_patrol _ _ _ _ Enemy.nearWall_clamp rfl rfl rfl
  have hp : ((Player.fresh (2000 : ℝ) 10).Position.Sub
      (Enemy.nearWall : Enemy ℝ).Position).Length = 1993 :=
    Vector.Length_of_sq _ 1993 (by norm_num)
      (by norm_num [Vector.Sub, Player.fresh, Enemy.nearWall])
  have ho : ((Enemy.nearWall : Enemy ℝ).Position.Sub
      (Enemy.nearWall : Enemy ℝ).Origin).Length = 7 :=
    Vector.Length_of_sq _ 7 (by norm_num) (by norm_num [Vector.Sub, Enemy.nearWall])
  refine ⟨Enemy.Update_wall_patrol _ _ _ _ Enemy.spawned_clamp rfl rfl rfl, rfl, rfl, ?_, ?_, ?_⟩
  · rw [hp]; norm_num
  · rw [ho]; norm_num
  · rw [hfix]
    exact lt_irrefl _

/-- C7, amended. For a `GUARD` enemy with `Speed = 6`, a player at distance `≥ 800`
from the clamped enemy position, and the clamped position farther than 5 units from
`Origin`: after `Enemy.Update` the state is `"PATROL"`, the enemy stands at the
clamped position moved by 3 times the unit vector toward `Origin`, and its distance
to `Origin` is the clamped distance minus 3, hence strictly smaller than the
clamped distance; when the position before the call already lies in
`[10, 4990]²` that is strictly smaller than the distance before the call. -/
theorem Enemy_Update_patrols (e : Enemy ℝ) (p : Player ℝ) (g : Game ℝ) (now : Time)
    (hg : e.Typ = GUARD) (hs : e.Speed = 6)
    (hd : 800 ≤ (p.Position.Sub e.toEntity.Update.Position).Length)
    (ho : 5 < (e.toEntity.Update.Position.Sub e.Origin).Length) :
    (e.Update p g now).1.State = "PATROL" ∧
    (e.Update p g now).1.Position =
      e.toEntity.Update.Position.Add ((e.Origin.Sub e.toEntity.Update.Position).Normalize.Mul 3) ∧
    (e.Origin.Sub e.toEntity.Update.Position).Normalize.Length = 1 ∧
    (∃ k : ℝ, 0 < k ∧ (e.Origin.Sub e.toEntity.Update.Position).Normalize =
      (e.Origin.Sub e.toEntity.Update.Position).Mul k) ∧
    ((e.Update p g now).1.Position.Sub e.Origin).Length =
      (e.toEntity.Update.Position.Sub e.Origin).Length - 3 ∧
    ((e.Update p g now).1.Position.Sub e.Origin).Length <
      (e.toEntity.Update.Position.Sub e.Origin).Length ∧
    (10 ≤ e.Position.X ∧ e.Position.X ≤ 4990 ∧ 10 ≤ e.Position.Y ∧ e.Position.Y ≤ 4990 →
      ((e.Update p g now).1.Position.Sub e.Origin).Length <
        (e.Position.Sub e.Origin).Length) := by
  have ho2 : 5 < (e.Origin.Sub e.toEntity.Update.Position).Length := by
    rw [Vector.Length_Sub_comm]
    exact ho
  have hne : (e.Origin.Sub e.toEntity.Update.Position).Length ≠ 0 := by
    intro h
    rw [h] at ho2
    norm_num at ho2
  have hpos : 0 < (e.Origin.Sub e.toEntity.Update.Position).Length := by linarith
  have hstep := Vector.Length_Sub_step e.toEntity.Update.Position e.Origin 3 hne (by linarith)
  rw [Vector.Length_Sub_comm] at hstep
  have h3 : (6 : ℝ) / 2 = 3 := by norm_num
  rw [Enemy.Update_far_guard e p g now hd hg, if_pos ho, Entity.Update_Speed, hs, h3]
  refine ⟨rfl, rfl, Vector.Length_Normalize _ hne,
    ⟨1 / (e.Origin.Sub e.toEntity.Update.Position).Length, by positivity,
      Vector.Normalize_of_ne _ hne⟩, ?_, ?_, ?_⟩
  · rw [hstep, Vector.Length_Sub_comm]
  · rw [hstep, Vector.Length_Sub_comm e.toEntity.Update.Position]
    linarith
  · rintro ⟨hx1, hx2, hy1, hy2⟩
    have hin : e.toEntity.Update = e.toEntity := Entity.Update_of_inside _ hx1 hx2 hy1 hy2
    rw [hin] at hstep
    rw [hin, hstep, Vector.Length_Sub_comm e.Position]
    linarith

theorem Enemy_Update_patrols_witness :
    ((Enemy.Update ({ Enemy.spawned (100 : ℝ) 100 with Origin := ⟨200, 100⟩ })
      (Player.fresh 2000 100) (Game.zero : Game ℝ) 0).1.Position.Sub ⟨200, 100⟩).Length = 97 := by
  have hc : ({ Enemy.spawned (100 : ℝ) 100 with Origin := ⟨200, 100⟩ }).toEntity.Update =
      (Enemy.spawned (100 : ℝ) 100).toEntity :=
    Entity.Update_of_inside _ (by norm_num [Enemy.spawned]) (by norm_num [Enemy.spawned])
      (by norm_num [Enemy.spawned]) (by norm_num [Enemy.spawned])
  have hp : ((Player.fresh (2000 : ℝ) 100).Position.Sub
      ({ Enemy.spawned (100 : ℝ) 100 with Origin := ⟨200, 100⟩ }).toEntity.Update.Position).Length
        = 1900 := by
    rw [hc]
    exact Vector.Length_of_sq _ 1900 (by norm_num)
      (by norm_num [Player.fresh, Enemy.spawned, Vector.Sub])
  have hor : (({ Enemy.spawned (100 : ℝ) 100 with
      Origin := ⟨200, 100⟩ }).toEntity.Update.Position.Sub ⟨200, 100⟩).Length = 100 := by
    rw [hc]
    exact Vector.Length_of_sq _ 100 (by norm_num) (by norm_num [Enemy.spawned, Vector.Sub])
  have h := (Enemy_Update_patrols ({ Enemy.spawned (100 : ℝ) 100 with Origin := ⟨200, 100⟩ })
    (Player.fresh 2000 100) Game.zero 0 rfl rfl (by rw [hp]; norm_num)
    (by show 5 < _; rw [hor]; norm_num)).2.2.2.2.1
  have h2 : ((Enemy.Update ({ Enemy.spawned (100 : ℝ) 100 with Origin := ⟨200, 100⟩ })
      (Player.fresh 2000 100) (Game.zero : Game ℝ) 0).1.Position.Sub ⟨200, 100⟩).Length =
      (({ Enemy.spawned (100 : ℝ) 100 with
        Origin := ⟨200, 100⟩ }).toEntity.Update.Position.Sub ⟨200, 100⟩).Length - 3 := h
  rw [h2, hor]
  norm_num

/-- C8, as stated, fails: the enemy spawned at `(0, 10)` is at its origin, the
player is 2000 ≥ 800 units away, and after `Enemy.Update` the enemy is at `(7, 10)`,
not at its origin, in state `"PATROL"`. -/
theorem Enemy_at_origin_not_snapped :
    (Enemy.spawned (0 : ℝ) 10).Typ = GUARD ∧
    800 ≤ ((Player.fresh (2000 : ℝ) 10).Position.Sub (Enemy.spawned (0 : ℝ) 10).Position).Length ∧
    ((Enemy.spawned (0 : ℝ) 10).Position.Sub (Enemy.spawned (0 : ℝ) 10).Origin).Length ≤ 5 ∧
    (Enemy.Update (Enemy.spawned 0 10) (Player.fresh 2000 10) (Game.zero : Game ℝ)
      0).1.Position ≠ (Enemy.spawned (0 : ℝ) 10).Origin ∧
    (Enemy.Update (Enemy.spawned 0 10) (Player.fresh 2000 10) (Game.zero : Game ℝ)
      0).1.State ≠ "IDLE" := by
  have hp : ((Player.fresh (2000 : ℝ) 10).Position.Sub
      (Enemy.spawned (0 : ℝ) 10).Position).Length = 2000 :=
    Vector.Length_of_sq _ 2000 (by norm_num)
      (by norm_num [Vector.Sub, Player.fresh, Enemy.spawned])
  have ho : ((Enemy.spawned (0 : ℝ) 10).Position.Sub (Enemy.spawned (0 : ℝ) 10).Origin).Length
      = 0 :=
    Vector.Length_of_sq _ 0 (le_refl _) (by norm_num [Vector.Sub, Enemy.spawned])
  rw [Enemy.Update_wall_patrol _ _ _ _ Enemy.spawned_clamp rfl rfl rfl, hp, ho]
  refine ⟨rfl, by norm_num, by norm_num, ?_, by decide⟩
  intro h
  have hx := congrArg Vector.X h
  norm_num [Enemy.spawned] at hx

/-- C8, amended. For a `GUARD` enemy, a player at distance `≥ 800` from the clamped
enemy position, and the clamped position within 5 units of `Origin`: after
`Enemy.Update` the position is `Origin`, `Bullets = 100`, `State = "IDLE"`, and the
player's `Life` and the projectile list are unchanged; the clamped position is the
position before the call whenever that lies in `[10, 4990]²`. -/
theorem Enemy_Update_snaps (e : Enemy ℝ) (p : Player ℝ) (g : Game ℝ) (now : Time)
    (hg : e.Typ = GUARD)
    (hd : 800 ≤ (p.Position.Sub e.toEntity.Update.Position).Length)
    (ho : (e.toEntity.Update.Position.Sub e.Origin).Length ≤ 5) :
    (e.Update p g now).1.Position = e.Origin ∧
    (e.Update p g now).1.Bullets = 100 ∧
    (e.Update p g now).1.State = "IDLE" ∧
    (e.Update p g now).2.1.Life = p.Life ∧
    (e.Update p g now).2.2.Projectiles = g.Projectiles ∧
    (10 ≤ e.Position.X ∧ e.Position.X ≤ 4990 ∧ 10 ≤ e.Position.Y ∧ e.Position.Y ≤ 4990 →
      e.toEntity.Update.Position = e.Position) := by
  rw [Enemy.Update_far_guard e p g now hd hg, if_neg (not_lt.mpr ho)]
  refine ⟨rfl, rfl, rfl, rfl, rfl, ?_⟩
  rintro ⟨hx1, hx2, hy1, hy2⟩
  rw [Entity.Update_of_inside _ hx1 hx2 hy1 hy2]

theorem Enemy_Update_snaps_witness :
    (Enemy.Update ({ Enemy.spawned (100 : ℝ) 100 with Origin := ⟨103, 104⟩, Bullets := 7 })
      (Player.fresh 2000 100) (Game.zero : Game ℝ) 0).1.Bullets = 100 := by
  have hc : ({ Enemy.spawned (100 : ℝ) 100 with
      Origin := ⟨103, 104⟩, Bullets := 7 }).toEntity.Update =
      (Enemy.spawned (100 : ℝ) 100).toEntity :=
    Entity.Update_of_inside _ (by norm_num [Enemy.spawned]) (by norm_num [Enemy.spawned])
      (by norm_num [Enemy.spawned]) (by norm_num [Enemy.spawned])
  have hp : ((Player.fresh (2000 : ℝ) 100).Position.Sub
      ({ Enemy.spawned (100 : ℝ) 100 with
        Origin := ⟨103, 104⟩, Bullets := 7 }).toEntity.Update.Position).Length = 1900 := by
    rw [hc]
    exact Vector.Length_of_sq _ 1900 (by norm_num)
      (by norm_num [Player.fresh, Enemy.spawned, Vector.Sub])
  have hor : (({ Enemy.spawned (100 : ℝ) 100 with
      Origin := ⟨103, 104⟩, Bullets := 7 }).toEntity.Update.Position.Sub ⟨103, 104⟩).Length
        = 5 := by
    rw [hc]
    exact Vector.Length_of_sq _ 5 (by norm_num) (by norm_num [Enemy.spawned, Vector.Sub])
  exact (Enemy_Update_snaps ({ Enemy.spawned (100 : ℝ) 100 with
      Origin := ⟨103, 104⟩, Bullets := 7 })
    (Player.fresh 2000 100) Game.zero 0 rfl (by rw [hp]; norm_num)
    (by show _ ≤ (5 : ℝ); rw [hor])).2.1

/-! ## One tick of the game -/

theorem Game.Update_eq (g : Game ℝ) (inp : Input) (now : Time) (rnd : Rand) :
    g.Update inp now rnd =
      ((g.beforeProjectiles inp now rnd).projectileLoop
        (g.beforeProjectiles inp now rnd).Projectiles.length).map
        (fun g6 => g6.spawn now (g.beforeEnemies inp now rnd).2) := by
  unfold Game.Update Game.beforeProjectiles Game.beforeEnemies
  simp only []
  generalize @Game.projectileLoop ℝ _ _ _ _ = r
  cases r <;> rfl

theorem Player.Update_Life (p : Player ℝ) (inp : Input) : (p.Update inp).Life = p.Life := by
  unfold Player.Update
  simp only []
  split_ifs <;> rfl

theorem Player.Update_Speed_eq (p : Player ℝ) (inp : Input) : (p.Update inp).Speed = p.Speed := by
  unfold Player.Update
  simp only []
  split_ifs <;> exact Entity.Update_Speed _

theorem Time.Since_overdue (now : Int) :
    Time.Since now (Time.Add now (-999 * Hour)) = 999 * Hour := by
  have h : now - (now + -999 * Hour) = 999 * Hour := by ring
  unfold Time.Since Time.Sub Time.Add
  rw [h, if_neg (by decide), if_neg (by decide)]

theorem Game.spawnLoop_eq (k : Nat) : ∀ (g : Game ℝ) (rnd : Rand),
    (g.spawnLoop k rnd).1 = { g with Enemies := g.Enemies ++ spawnWave k rnd } := by
  induction k with
  | zero => intro g rnd; simp [Game.spawnLoop, spawnWave]
  | succ k ih =>
    intro g rnd
    simp only [Game.spawnLoop, Rand.Intn, spawnWave]
    rw [ih]
    simp [Enemy.spawned]

theorem Game.updateEnemies_nil (g : Game ℝ) (now : Time) (h : g.Enemies = []) :
    g.updateEnemies now = g := by
  simp [Game.updateEnemies, h]

theorem Game.toggleDebug_Player (g : Game ℝ) (inp : Input) :
    (g.toggleDebug inp).Player = g.Player := by
  unfold Game.toggleDebug
  split_ifs <;> rfl

theorem Game.spawn_of_overdue (g : Game ℝ) (now : Time) (rnd : Rand)
    (h : Time.Since now g.LastSpawnTime > 10 * Second) :
    g.spawn now rnd =
      { g with Enemies := g.Enemies ++ spawnWave 10 rnd, LastSpawnTime := now } := by
  unfold Game.spawn
  rw [if_pos h]
  show ({ (g.spawnLoop 10 rnd).1 with LastSpawnTime := now } : Game ℝ) = _
  rw [Game.spawnLoop_eq]

theorem Game.spawn_of_not_overdue (g : Game ℝ) (now : Time) (rnd : Rand)
    (h : ¬ Time.Since now g.LastSpawnTime > 10 * Second) : g.spawn now rnd = g := by
  unfold Game.spawn
  rw [if_neg h]

theorem Game.beforeEnemies_of_dead (g : Game ℝ) (inp : Input) (now : Time) (rnd : Rand)
    (h : g.Player.Life ≤ 0) :
    g.beforeEnemies inp now rnd =
      ({ Player := Player.fresh ((rnd 0 % 5000 : Nat) : ℝ) ((rnd 1 % 5000 : Nat) : ℝ),
         Enemies := [],
         ShootingCoolDown := 200 * Millisecond,
         Projectiles := [],
         Camera := { Position := ⟨0, 0⟩ },
         LastSpawnTime := Time.Add now (-999 * Hour),
         SpawnRate := g.SpawnRate,
         Debug := false,
         Key1Pressed :=
           (Game.toggleDebug { g with Player := g.Player.Update inp } inp).Key1Pressed },
       fun k => rnd (k + 2)) := by
  have hl : (Game.toggleDebug { g with Player := g.Player.Update inp } inp).Player.Life ≤ 0 := by
    rw [Game.toggleDebug_Player, Player.Update_Life]
    exact h
  have hs : (Game.toggleDebug { g with Player := g.Player.Update inp } inp).SpawnRate
      = g.SpawnRate := by
    unfold Game.toggleDebug
    split_ifs <;> rfl
  unfold Game.beforeEnemies Game.resetIfDead
  rw [if_pos hl]
  simp only [Game.Init, Rand.Intn, Player.fresh, hs]

/-- C9. When `Player.Life ≤ 0` at the call, `Game.Update` returns normally and at its
end: the projectile list is empty; the enemy list is exactly the wave of 10 enemies
spawned in this tick (built from the random stream alone, nothing of the old list
remains); the player is the fresh one of `Init` (`Life` 100, `Speed` 8, zero
velocity) standing at `Init`'s random point; `Debug` is false; the camera is the
result of one `FollowTarget` step from `(0,0)`; and the spawn timer reads `now`. -/
theorem Game_Update_resets (g : Game ℝ) (inp : Input) (now : Time) (rnd : Rand)
    (h : g.Player.Life ≤ 0) :
    ∃ g1, g.Update inp now rnd = some g1 ∧
      g1.Projectiles = [] ∧
      g1.Enemies = spawnWave 10 (fun k => rnd (k + 2)) ∧
      g1.Enemies.length = 10 ∧
      g1.Player = Player.fresh ((rnd 0 % 5000 : Nat) : ℝ) ((rnd 1 % 5000 : Nat) : ℝ) ∧
      g1.Player.Life = 100 ∧
      g1.Player.Speed = 8 ∧
      g1.Player.Position = ⟨((rnd 0 % 5000 : Nat) : ℝ), ((rnd 1 % 5000 : Nat) : ℝ)⟩ ∧
      g1.Debug = false ∧
      g1.Camera = Camera.FollowTarget ({ Position := ⟨0, 0⟩ } : Camera ℝ)
        (Player.fresh ((rnd 0 % 5000 : Nat) : ℝ) ((rnd 1 % 5000 : Nat) : ℝ)).toEntity 1920 1080 ∧
      g1.LastSpawnTime = now := by
  have hover : Time.Since now (Time.Add now (-999 * Hour)) > 10 * Second := by
    rw [Time.Since_overdue]
    decide
  rw [Game.Update_eq]
  unfold Game.beforeProjectiles
  rw [Game.beforeEnemies_of_dead g inp now rnd h, Game.updateEnemies_nil _ _ rfl]
  simp only [Game.follow, List.length_nil, Game.projectileLoop, Option.map_some']
  rw [Game.spawn_of_overdue _ _ _ hover]
  exact ⟨_, rfl, rfl, rfl, rfl, rfl, rfl, rfl, rfl, rfl, rfl, rfl⟩

theorem Game_Update_resets_witness :
    ∃ g1, Game.Update ({ (Game.zero : Game ℝ) with
        Enemies := [Enemy.spawned 100 100], Projectiles := [⟨⟨50, 50⟩, ⟨20, 0⟩⟩], Debug := true })
        ⟨false, false, false, true, false, false⟩ 1000 (fun k => k) = some g1 ∧
      g1.Projectiles = [] ∧ g1.Enemies.length = 10 ∧ g1.Player.Life = 100 ∧ g1.Debug = false := by
  obtain ⟨g1, h1, h2, -, h4, -, h6, -, -, h9, -⟩ := Game_Update_resets
    ({ (Game.zero : Game ℝ) with
        Enemies := [Enemy.spawned 100 100], Projectiles := [⟨⟨50, 50⟩, ⟨20, 0⟩⟩], Debug := true })
    ⟨false, false, false, true, false, false⟩ 1000 (fun k => k) (by decide)
  exact ⟨g1, h1, h2, h4, h6, h9⟩

/-! ## The spawn wave -/

theorem set_eq_self {β : Type} : ∀ (l : List β) (i : Nat) (a : β), l[i]? = some a → l.set i a = l
  | [], _, _, h => by simp at h
  | b :: l, 0, a, h => by
    simp only [List.getElem?_cons_zero, Option.some.injEq] at h
    simp [h]
  | b :: l, i + 1, a, h => by
    simp only [List.getElem?_cons_succ] at h
    simp [set_eq_self l i a h]

/-- The fields of an enemy that `Enemy.Update` never writes. -/
theorem Enemy.Update_keeps (e : Enemy ℝ) (p : Player ℝ) (g : Game ℝ) (now : Time) :
    (e.Update p g now).1.Origin = e.Origin ∧ (e.Update p g now).1.Typ = e.Typ ∧
    (e.Update p g now).1.Speed = e.Speed ∧
    (e.Update p g now).2.2 = { g with Projectiles := (e.Update p g now).2.2.Projectiles } ∧
    (e.Update p g now).2.1.toEntity = p.toEntity := by
  have hs := Entity.Update_Speed e.toEntity
  by_cases h20 : (p.Position.Sub e.toEntity.Update.Position).Length < 20
  · rw [Enemy.Update_melee e p g now h20]
    split_ifs <;> exact ⟨rfl, rfl, hs, rfl, rfl⟩
  · by_cases h400 : (p.Position.Sub e.toEntity.Update.Position).Length < 400
    · rw [Enemy.Update_close e p g now (not_lt.mp h20) h400]
      exact ⟨rfl, rfl, hs, rfl, rfl⟩
    · by_cases h800 : (p.Position.Sub e.toEntity.Update.Position).Length < 800
      · rw [Enemy.Update_range e p g now (not_lt.mp h400) h800]
        split_ifs <;> exact ⟨rfl, rfl, hs, rfl, rfl⟩
      · by_cases hg : e.Typ = GUARD
        · rw [Enemy.Update_far_guard e p g now (not_lt.mp h800) hg]
          split_ifs <;> exact ⟨rfl, rfl, hs, rfl, rfl⟩
        · rw [Enemy.Update_far_other e p g now (not_lt.mp h800) hg]
          exact ⟨rfl, rfl, hs, rfl, rfl⟩

theorem Game.frameEq_refl (g : Game ℝ) : g.frameEq g := ⟨rfl, rfl, rfl, rfl, rfl, rfl⟩

theorem Game.frameEq_trans {g g1 g2 : Game ℝ} (h1 : g.frameEq g1) (h2 : g1.frameEq g2) :
    g.frameEq g2 := by
  obtain ⟨a1, a2, a3, a4, a5, a6⟩ := h1
  obtain ⟨b1, b2, b3, b4, b5, b6⟩ := h2
  exact ⟨b1.trans a1, b2.trans a2, b3.trans a3, b4.trans a4, b5.trans a5, b6.trans a6⟩

theorem Game.updateEnemy_keeps (now : Time) (g : Game ℝ) (i : Nat) :
    g.frameEq (Game.updateEnemy now g i) ∧
    (Game.updateEnemy now g i).Enemies.length = g.Enemies.length ∧
    (Game.updateEnemy now g i).Enemies.map (fun e => (e.Origin, e.Typ, e.Speed)) =
      g.Enemies.map (fun e => (e.Origin, e.Typ, e.Speed)) := by
  unfold Game.updateEnemy
  cases hget : g.Enemies[i]? with
  | none => exact ⟨Game.frameEq_refl g, rfl, rfl⟩
  | some e =>
    obtain ⟨ho, ht, hs, hg, -⟩ := Enemy.Update_keeps e g.Player g now
    simp only []
    rw [hg]
    refine ⟨⟨rfl, rfl, rfl, rfl, rfl, rfl⟩, by simp, ?_⟩
    simp only [List.map_set, ho, ht, hs]
    exact set_eq_self _ _ _ (by simp [List.getElem?_map, hget])

theorem Game.foldl_updateEnemy_keeps (now : Time) (l : List Nat) : ∀ (g : Game ℝ),
    g.frameEq (l.foldl (Game.updateEnemy now) g) ∧
    (l.foldl (Game.updateEnemy now) g).Enemies.length = g.Enemies.length ∧
    (l.foldl (Game.updateEnemy now) g).Enemies.map (fun e => (e.Origin, e.Typ, e.Speed)) =
      g.Enemies.map (fun e => (e.Origin, e.Typ, e.Speed)) := by
  induction l with
  | nil => intro g; exact ⟨Game.frameEq_refl g, rfl, rfl⟩
  | cons i l ih =>
    intro g
    obtain ⟨h1, h2, h3⟩ := Game.updateEnemy_keeps now g i
    obtain ⟨k1, k2, k3⟩ := ih (Game.updateEnemy now g i)
    exact ⟨Game.frameEq_trans h1 k1, k2.trans h2, k3.trans h3⟩

theorem Game.updateEnemies_keeps (now : Time) (g : Game ℝ) :
    g.frameEq (g.updateEnemies now) ∧
    (g.updateEnemies now).Enemies.length = g.Enemies.length ∧
    (g.updateEnemies now).Enemies.map (fun e => (e.Origin, e.Typ, e.Speed)) =
      g.Enemies.map (fun e => (e.Origin, e.Typ, e.Speed)) :=
  Game.foldl_updateEnemy_keeps now _ g

theorem Game.projectileStep_keeps (g g1 : Game ℝ) (i : Nat) (h : g.projectileStep i = some g1) :
    g.frameEq g1 ∧ g1.Enemies = g.Enemies := by
  unfold Game.projectileStep at h
  cases hget : g.Projectiles[i]? with
  | none => rw [hget] at h; simp at h
  | some p =>
    rw [hget] at h
    simp only [] at h
    split_ifs at h <;> (cases h; exact ⟨⟨rfl, rfl, rfl, rfl, rfl, rfl⟩, rfl⟩)

theorem Game.projectileLoop_keeps (n : Nat) : ∀ (g g1 : Game ℝ),
    g.projectileLoop n = some g1 → g.frameEq g1 ∧ g1.Enemies = g.Enemies := by
  induction n with
  | zero =>
    intro g g1 h
    simp only [Game.projectileLoop, Option.some.injEq] at h
    subst h
    exact ⟨Game.frameEq_refl g, rfl⟩
  | succ n ih =>
    intro g g1 h
    simp only [Game.projectileLoop] at h
    cases hs : g.projectileStep n with
    | none => rw [hs] at h; simp at h
    | some g2 =>
      rw [hs] at h
      obtain ⟨a1, a2⟩ := Game.projectileStep_keeps g g2 n hs
      obtain ⟨b1, b2⟩ := ih g2 g1 (by simpa using h)
      exact ⟨Game.frameEq_trans a1 b1, b2.trans a2⟩

theorem Game.toggleDebug_keeps (g : Game ℝ) (inp : Input) :
    (g.toggleDebug inp).Enemies = g.Enemies ∧
    (g.toggleDebug inp).LastSpawnTime = g.LastSpawnTime ∧
    (g.toggleDebug inp).Projectiles = g.Projectiles := by
  unfold Game.toggleDebug
  split_ifs <;> exact ⟨rfl, rfl, rfl⟩

theorem Game.beforeEnemies_of_alive (g : Game ℝ) (inp : Input) (now : Time) (rnd : Rand)
    (h : 0 < g.Player.Life) :
    g.beforeEnemies inp now rnd =
      (Game.toggleDebug { g with Player := g.Player.Update inp } inp, rnd) := by
  have hl : ¬ (Game.toggleDebug { g with Player := g.Player.Update inp } inp).Player.Life ≤ 0 := by
    rw [Game.toggleDebug_Player, Player.Update_Life]
    exact not_le.mpr h
  unfold Game.beforeEnemies Game.resetIfDead
  rw [if_neg hl]

theorem spawnWave_length (k : Nat) : ∀ rnd : Rand, (spawnWave k rnd : List (Enemy ℝ)).length = k := by
  induction k with
  | zero => intro rnd; rfl
  | succ k ih => intro rnd; simp [spawnWave, ih]

theorem spawnWave_mem (k : Nat) : ∀ (rnd : Rand) (e : Enemy ℝ), e ∈ spawnWave k rnd →
    ∃ x y : Nat, x < 5000 ∧ y < 5000 ∧ e = Enemy.spawned (x : ℝ) (y : ℝ) := by
  induction k with
  | zero => intro rnd e h; simp [spawnWave] at h
  | succ k ih =>
    intro rnd e h
    simp only [spawnWave, List.mem_cons] at h
    rcases h with h | h
    · exact ⟨rnd 0 % 5000, rnd 1 % 5000, Nat.mod_lt _ (by norm_num), Nat.mod_lt _ (by norm_num), h⟩
    · exact ih _ e h

/-- C10. With `Player.Life > 0` at the call, `Game.Update` returns normally.  If
`time.Since(LastSpawnTime) > 10s` its enemy list is the list left by this tick's
enemy loop (as long as the list at the call, with the same `Origin`, `Type` and
`Speed` at every index) followed by exactly 10 new enemies, each of `Type` `GUARD`,
`State` `"IDLE"`, `Bullets` 100, `Speed` 6, zero `Velocity`, `Origin` equal to
`Position`, and integer coordinates in `[0, 5000)`; `LastSpawnTime` becomes `now`.
Otherwise the number of enemies is unchanged.  In particular the first
`Game.Update` on a freshly initialised game ends with exactly 10 such enemies. -/
theorem Game_Update_spawns :
    (∀ (g : Game ℝ) (inp : Input) (now : Time) (rnd : Rand), 0 < g.Player.Life →
      ∃ g1, g.Update inp now rnd = some g1 ∧
        ((g.beforeEnemies inp now rnd).1.updateEnemies now).Enemies.length = g.Enemies.length ∧
        ((g.beforeEnemies inp now rnd).1.updateEnemies now).Enemies.map
            (fun e => (e.Origin, e.Typ, e.Speed)) =
          g.Enemies.map (fun e => (e.Origin, e.Typ, e.Speed)) ∧
        (Time.Since now g.LastSpawnTime > 10 * Second →
          g1.Enemies =
            ((g.beforeEnemies inp now rnd).1.updateEnemies now).Enemies ++ spawnWave 10 rnd ∧
          g1.Enemies.length = g.Enemies.length + 10 ∧
          g1.LastSpawnTime = now) ∧
        (¬ Time.Since now g.LastSpawnTime > 10 * Second →
          g1.Enemies = ((g.beforeEnemies inp now rnd).1.updateEnemies now).Enemies ∧
          g1.Enemies.length = g.Enemies.length ∧
          g1.LastSpawnTime = g.LastSpawnTime)) ∧
    (∀ rnd : Rand, (spawnWave 10 rnd : List (Enemy ℝ)).length = 10 ∧
      ∀ e ∈ (spawnWave 10 rnd : List (Enemy ℝ)),
        e.Typ = GUARD ∧ e.State = "IDLE" ∧ e.Bullets = 100 ∧ e.Speed = 6 ∧
        e.Velocity = ⟨0, 0⟩ ∧ e.Origin = e.Position ∧
        ∃ x y : Nat, x < 5000 ∧ y < 5000 ∧ e.Position = ⟨(x : ℝ), (y : ℝ)⟩) ∧
    (∀ (rnd0 rnd : Rand) (inp : Input) (now : Time),
      Time.Since now Time.zero > 10 * Second →
      ∃ g1, ((Game.zero : Game ℝ).Init rnd0).1.Update inp now rnd = some g1 ∧
        g1.Enemies = spawnWave 10 rnd ∧ g1.Enemies.length = 10) := by
  have main : ∀ (g : Game ℝ) (inp : Input) (now : Time) (rnd : Rand), 0 < g.Player.Life →
      ∃ g1, g.Update inp now rnd = some g1 ∧
        ((g.beforeEnemies inp now rnd).1.updateEnemies now).Enemies.length = g.Enemies.length ∧
        ((g.beforeEnemies inp now rnd).1.updateEnemies now).Enemies.map
            (fun e => (e.Origin, e.Typ, e.Speed)) =
          g.Enemies.map (fun e => (e.Origin, e.Typ, e.Speed)) ∧
        (Time.Since now g.LastSpawnTime > 10 * Second →
          g1.Enemies =
            ((g.beforeEnemies inp now rnd).1.updateEnemies now).Enemies ++ spawnWave 10 rnd ∧
          g1.Enemies.length = g.Enemies.length + 10 ∧
          g1.LastSpawnTime = now) ∧
        (¬ Time.Since now g.LastSpawnTime > 10 * Second →
          g1.Enemies = ((g.beforeEnemies inp now rnd).1.updateEnemies now).Enemies ∧
          g1.Enemies.length = g.Enemies.length ∧
          g1.LastSpawnTime = g.LastSpawnTime) := by
    intro g inp now rnd hlife
    have hbe := Game.beforeEnemies_of_alive g inp now rnd hlife
    obtain ⟨t1, t2, -⟩ := Game.toggleDebug_keeps { g with Player := g.Player.Update inp } inp
    obtain ⟨u1, u2, u3⟩ := Game.updateEnemies_keeps now (g.beforeEnemies inp now rnd).1
    have hlen : ((g.beforeEnemies inp now rnd).1.updateEnemies now).Enemies.length
        = g.Enemies.length := by
      rw [u2, hbe]
      exact congrArg List.length t1
    have hkeys : ((g.beforeEnemies inp now rnd).1.updateEnemies now).Enemies.map
        (fun e => (e.Origin, e.Typ, e.Speed)) =
          g.Enemies.map (fun e => (e.Origin, e.Typ, e.Speed)) := by
      rw [u3, hbe]
      exact congrArg (List.map _) t1
    obtain ⟨g6, hloop, -, -⟩ := Game.projectileLoop_append
      (g.beforeProjectiles inp now rnd).Projectiles (g.beforeProjectiles inp now rnd) [] (by simp)
    obtain ⟨f1, f2⟩ := Game.projectileLoop_keeps _ _ _ hloop
    have hE : g6.Enemies = ((g.beforeEnemies inp now rnd).1.updateEnemies now).Enemies := f2
    have hT : g6.LastSpawnTime = g.LastSpawnTime := by
      have a : g6.LastSpawnTime = (g.beforeProjectiles inp now rnd).LastSpawnTime := f1.2.2.1
      have b : (g.beforeProjectiles inp now rnd).LastSpawnTime =
          (g.beforeEnemies inp now rnd).1.LastSpawnTime := u1.2.2.1
      rw [a, b, hbe]
      exact t2
    have hr : (g.beforeEnemies inp now rnd).2 = rnd := by rw [hbe]
    refine ⟨g6.spawn now rnd, ?_, hlen, hkeys, ?_, ?_⟩
    · rw [Game.Update_eq, hloop, Option.map_some', hr]
    · intro hover
      rw [Game.spawn_of_overdue g6 now rnd (by rw [hT]; exact hover)]
      refine ⟨by rw [← hE], ?_, rfl⟩
      show (g6.Enemies ++ spawnWave 10 rnd).length = _
      rw [List.length_append, spawnWave_length, hE, hlen]
    · intro hnot
      rw [Game.spawn_of_not_overdue g6 now rnd (by rw [hT]; exact hnot)]
      exact ⟨hE, by rw [hE, hlen], hT⟩
  refine ⟨main, ?_, ?_⟩
  · intro rnd
    refine ⟨spawnWave_length 10 rnd, ?_⟩
    intro e he
    obtain ⟨x, y, hx, hy, rfl⟩ := spawnWave_mem 10 rnd e he
    exact ⟨rfl, rfl, rfl, rfl, rfl, rfl, x, y, hx, hy, rfl⟩
  · intro rnd0 rnd inp now hnow
    obtain ⟨g1, h1, h2, -, h4, -⟩ := main ((Game.zero : Game ℝ).Init rnd0).1 inp now rnd
      (by show (0 : Int) < 100; decide)
    obtain ⟨k1, k2, -⟩ := h4 hnow
    have hnil : (Game.updateEnemies now
        ((Game.zero.Init rnd0).1.beforeEnemies inp now rnd).1).Enemies = [] :=
      List.eq_nil_of_length_eq_zero h2
    rw [hnil, List.nil_append] at k1
    exact ⟨g1, h1, k1, by rw [k1]; exact spawnWave_length 10 rnd⟩

theorem Game_Update_spawns_witness :
    (∃ g1, ((Game.zero : Game ℝ).Init (fun k => k)).1.Update
        ⟨false, false, false, false, false, false⟩ 1000000000000 (fun k => 7 * k) = some g1 ∧
      g1.Enemies.length = 10) ∧
    (∃ g1, ((Game.zero : Game ℝ).Init (fun k => k)).1.Update
        ⟨false, false, false, false, false, false⟩ 5 (fun k => 7 * k) = some g1 ∧
      g1.Enemies.length = 0) := by
  constructor
  · obtain ⟨g1, h1, -, h3⟩ := Game_Update_spawns.2.2 (fun k => k) (fun k => 7 * k)
      ⟨false, false, false, false, false, false⟩ 1000000000000 (by decide)
    exact ⟨g1, h1, h3⟩
  · obtain ⟨g1, h1, -, -, -, h5⟩ := Game_Update_spawns.1 ((Game.zero : Game ℝ).Init (fun k => k)).1
      ⟨false, false, false, false, false, false⟩ 5 (fun k => 7 * k)
      (by show (0 : Int) < 100; decide)
    exact ⟨g1, h1, (h5 (by
      show ¬ Time.Since 5 Time.zero > 10 * Second
      decide)).2.1⟩

/-! ## Normalize and the camera -/

theorem Vector.eq_zero_iff (v : Vector ℝ) : v = ⟨0, 0⟩ ↔ v.X = 0 ∧ v.Y = 0 := by
  cases v
  simp

/-- C16. `Vector.Normalize` never divides by zero: the guard `length == 0` holds
exactly for the zero vector, `Normalize` of `(0,0)` is `(0,0)`, and for a non-zero
`v` the divisor `Length v` is non-zero, `Normalize v = v / Length v`, its length is
exactly 1 and it is a positive multiple of `v`. -/
theorem Vector_Normalize_safe :
    Vector.Normalize (⟨0, 0⟩ : Vector ℝ) = ⟨0, 0⟩ ∧
    (∀ v : Vector ℝ, v.Length = 0 ↔ v = ⟨0, 0⟩) ∧
    (∀ v : Vector ℝ, v ≠ ⟨0, 0⟩ →
      v.Length ≠ 0 ∧ v.Normalize = v.Div v.Length ∧ v.Normalize.Length = 1 ∧
      ∃ k : ℝ, 0 < k ∧ v.Normalize = v.Mul k) := by
  have hz : ∀ v : Vector ℝ, v.Length = 0 ↔ v = ⟨0, 0⟩ := by
    intro v
    rw [Vector.Length_eq_zero, Vector.eq_zero_iff]
  refine ⟨?_, hz, ?_⟩
  · have h0 : (⟨0, 0⟩ : Vector ℝ).Length = 0 := (hz _).mpr rfl
    simp only [Vector.Normalize, h0, if_true]
  · intro v hv
    have hne : v.Length ≠ 0 := fun h => hv ((hz v).mp h)
    have hpos : 0 < v.Length := lt_of_le_of_ne (Vector.Length_nonneg v) (Ne.symm hne)
    refine ⟨hne, ?_, Vector.Length_Normalize v hne, 1 / v.Length, by positivity,
      Vector.Normalize_of_ne v hne⟩
    simp only [Vector.Normalize, hne, if_false]

theorem Vector_Normalize_safe_witness :
    (Vector.Normalize (⟨3, 4⟩ : Vector ℝ)).Length = 1 :=
  (Vector_Normalize_safe.2.2 ⟨3, 4⟩ (by
    intro h
    have := congrArg Vector.X h
    norm_num at this)).2.2.1

theorem Camera.FollowTarget_Position (c : Camera ℝ) (target : Entity ℝ) :
    (c.FollowTarget target 1920 1080).Position =
      ⟨c.Position.X + (960 - target.Position.X - c.Position.X) * 0.05,
       c.Position.Y + (540 - target.Position.Y - c.Position.Y) * 0.05⟩ := by
  simp only [Camera.FollowTarget, Vector.Add, Vector.Sub, Vector.Mul, Vector.mk.injEq]
  constructor <;> push_cast <;> ring

/-- C15, amended. Reading `float64` as a real number and the constant `0.05` as 1/20:
with `t = (960 - x, 540 - y)` for a target at `(x, y)`, `Camera.FollowTarget` with a
1920x1080 viewport sets the camera to `c + 0.05 * (t - c)`; the offset `t - c` is
multiplied by `0.95` per call, after `n` calls with the same target it is
`0.95 ^ n * (t - c)`, and a camera at `t` stays at `t`. -/
theorem Camera_FollowTarget_smooths (c : Camera ℝ) (target : Entity ℝ) :
    (c.FollowTarget target 1920 1080).Position =
      c.Position.Add
        (((⟨960 - target.Position.X, 540 - target.Position.Y⟩ : Vector ℝ).Sub c.Position).Mul
          0.05) ∧
    (⟨960 - target.Position.X, 540 - target.Position.Y⟩ : Vector ℝ).Sub
        (c.FollowTarget target 1920 1080).Position =
      ((⟨960 - target.Position.X, 540 - target.Position.Y⟩ : Vector ℝ).Sub c.Position).Mul
        0.95 ∧
    (∀ n : Nat,
      (⟨960 - target.Position.X, 540 - target.Position.Y⟩ : Vector ℝ).Sub
          ((fun k : Camera ℝ => k.FollowTarget target 1920 1080)^[n] c).Position =
        ((⟨960 - target.Position.X, 540 - target.Position.Y⟩ : Vector ℝ).Sub c.Position).Mul
          (0.95 ^ n)) ∧
    (c.Position = ⟨960 - target.Position.X, 540 - target.Position.Y⟩ →
      (c.FollowTarget target 1920 1080).Position =
        ⟨960 - target.Position.X, 540 - target.Position.Y⟩) := by
  have step : ∀ k : Camera ℝ,
      (⟨960 - target.Position.X, 540 - target.Position.Y⟩ : Vector ℝ).Sub
          (k.FollowTarget target 1920 1080).Position =
        ((⟨960 - target.Position.X, 540 - target.Position.Y⟩ : Vector ℝ).Sub k.Position).Mul
          0.95 := by
    intro k
    rw [Camera.FollowTarget_Position]
    simp only [Vector.Sub, Vector.Mul, Vector.mk.injEq]
    constructor <;> ring
  refine ⟨?_, step c, ?_, ?_⟩
  · rw [Camera.FollowTarget_Position]
    simp only [Vector.Add, Vector.Sub, Vector.Mul]
  · intro n
    induction n with
    | zero => simp [Vector.Mul]
    | succ n ih =>
      rw [Function.iterate_succ_apply', step, ih, Vector.Mul_Mul, pow_succ]
  · intro h
    rw [Camera.FollowTarget_Position, h]
    simp

theorem Camera_FollowTarget_smooths_witness :
    (Camera.FollowTarget (⟨⟨0, 0⟩⟩ : Camera ℝ) ⟨⟨1, 1⟩, ⟨0, 0⟩, 8⟩ 1920 1080).Position =
      ⟨47.95, 26.95⟩ ∧
    (⟨960 - 1, 540 - 1⟩ : Vector ℝ).Sub
        ((fun k : Camera ℝ => k.FollowTarget ⟨⟨1, 1⟩, ⟨0, 0⟩, 8⟩ 1920 1080)^[2]
          (⟨⟨0, 0⟩⟩ : Camera ℝ)).Position = ⟨865.4975, 486.4475⟩ ∧
    (Camera.FollowTarget (⟨⟨860, 440⟩⟩ : Camera ℝ) ⟨⟨100, 100⟩, ⟨0, 0⟩, 8⟩ 1920 1080).Position =
      ⟨860, 440⟩ := by
  have h1 := (Camera_FollowTarget_smooths ⟨⟨0, 0⟩⟩ ⟨⟨1, 1⟩, ⟨0, 0⟩, 8⟩).1
  have h2 := (Camera_FollowTarget_smooths ⟨⟨0, 0⟩⟩ ⟨⟨1, 1⟩, ⟨0, 0⟩, 8⟩).2.2.1 2
  have h3 := (Camera_FollowTarget_smooths ⟨⟨860, 440⟩⟩ ⟨⟨100, 100⟩, ⟨0, 0⟩, 8⟩).2.2.2
    (by norm_num)
  refine ⟨?_, ?_, ?_⟩
  · rw [h1]
    norm_num [Vector.Add, Vector.Sub, Vector.Mul]
  · have h2' : (⟨960 - 1, 540 - 1⟩ : Vector ℝ).Sub
        ((fun k : Camera ℝ => k.FollowTarget ⟨⟨1, 1⟩, ⟨0, 0⟩, 8⟩ 1920 1080)^[2]
          (⟨⟨0, 0⟩⟩ : Camera ℝ)).Position =
        ((⟨960 - 1, 540 - 1⟩ : Vector ℝ).Sub (⟨0, 0⟩ : Vector ℝ)).Mul (0.95 ^ 2) := h2
    rw [h2']
    norm_num [Vector.Sub, Vector.Mul]
  · rw [h3]
    norm_num

/-! ## The player's move -/

theorem Player.Update_result (p : Player ℝ) (inp : Input) :
    p.Update inp =
      { Position := p.toEntity.Update.Position.Add
          ((Input.direction inp : Vector ℝ).Normalize.Mul p.Speed),
        Velocity := Input.direction inp,
        Speed := p.Speed,
        Life := p.Life } := by
  have hs := Entity.Update_Speed p.toEntity
  obtain ⟨w, s, a, d, c, k⟩ := inp
  unfold Player.Update Input.direction
  cases w <;> cases s <;> cases a <;> cases d <;> simp [hs]

theorem Vector.abs_X_le_Length (v : Vector ℝ) : |v.X| ≤ v.Length := by
  unfold Vector.Length
  rw [sqrt_real]
  apply Real.abs_le_sqrt
  nlinarith [mul_self_nonneg v.Y]

theorem Vector.abs_Y_le_Length (v : Vector ℝ) : |v.Y| ≤ v.Length := by
  unfold Vector.Length
  rw [sqrt_real]
  apply Real.abs_le_sqrt
  nlinarith [mul_self_nonneg v.X]

theorem Vector.Normalize_abs_le (v : Vector ℝ) :
    |v.Normalize.X| ≤ 1 ∧ |v.Normalize.Y| ≤ 1 := by
  by_cases h : v.Length = 0
  · simp [Vector.Normalize, h]
  · have hpos : 0 < v.Length := lt_of_le_of_ne (Vector.Length_nonneg v) (Ne.symm h)
    simp only [Vector.Normalize, h, if_false, Vector.Div, abs_div, abs_of_pos hpos]
    exact ⟨(div_le_one hpos).mpr (Vector.abs_X_le_Length v),
      (div_le_one hpos).mpr (Vector.abs_Y_le_Length v)⟩

theorem Entity_clamp_range (e : Entity ℝ) :
    (10 ≤ e.Update.Position.X ∧ e.Update.Position.X ≤ 4990) ∧
    (10 ≤ e.Update.Position.Y ∧ e.Update.Position.Y ≤ 4990) := by
  rw [Entity.Update_Position_X, Entity.Update_Position_Y]
  constructor <;> split_ifs <;> constructor <;> linarith

theorem Vector.Add_Sub_cancel (a b : Vector ℝ) : (a.Add b).Sub a = b := by
  cases a
  cases b
  simp [Vector.Add, Vector.Sub]

theorem Player.Update_displacement (p : Player ℝ) (inp : Input) :
    (p.Update inp).Position.Sub p.toEntity.Update.Position =
      (Input.direction inp : Vector ℝ).Normalize.Mul p.Speed := by
  rw [Player.Update_result]
  exact Vector.Add_Sub_cancel _ _

theorem Vector.Normalize_X_zero (v : Vector ℝ) (h : v.X = 0) : v.Normalize.X = 0 := by
  unfold Vector.Normalize
  simp only []
  split_ifs <;> simp [Vector.Div, h]

theorem Vector.Normalize_Y_zero (v : Vector ℝ) (h : v.Y = 0) : v.Normalize.Y = 0 := by
  unfold Vector.Normalize
  simp only []
  split_ifs <;> simp [Vector.Div, h]

theorem Player.Update_Position_congr (p : Player ℝ) (inp inp1 : Input)
    (h : (Input.direction inp : Vector ℝ) = Input.direction inp1) :
    (p.Update inp).Position = (p.Update inp1).Position := by
  rw [Player.Update_result, Player.Update_result, h]

theorem Player.Update_single_key (p : Player ℝ) (inp : Input) (x y : ℝ)
    (hdir : (Input.direction inp : Vector ℝ) = ⟨x, y⟩) (hlen : x * x + y * y = 1) :
    (p.Update inp).Position.Sub p.toEntity.Update.Position = ⟨x * p.Speed, y * p.Speed⟩ := by
  have hl : (⟨x, y⟩ : Vector ℝ).Length = 1 :=
    Vector.Length_of_sq _ 1 (by norm_num) (by simpa using hlen)
  rw [Player.Update_displacement, hdir, Vector.Normalize_of_Length _ _ (by norm_num) hl]
  simp [Vector.Mul]

/-- C11. `Player.Update` displaces the player from its clamped position by `Speed`
times the normalised net direction `(D - A, S - W)` of the pressed keys.  When the
net direction is non-zero the displacement has length `|Speed|`, which is exactly
`Speed` for `Speed ≥ 0` (the program only ever assigns `Speed = 8` to a player);
when it is zero the displacement is `(0,0)`.  Two opposite keys pressed together
contribute 0 on their axis: the displacement on that axis is 0 and the new position
is the one obtained with both keys released.  `W` with `D` alone moves by
`(Speed/√2, -Speed/√2)`, and a single key moves by `Speed` along its axis. -/
theorem Player_Update_moves (p : Player ℝ) (inp : Input) :
    (Input.direction inp : Vector ℝ) =
      ⟨(if inp.KeyD then 1 else 0) - (if inp.KeyA then 1 else 0),
       (if inp.KeyS then 1 else 0) - (if inp.KeyW then 1 else 0)⟩ ∧
    (p.Update inp).Position.Sub p.toEntity.Update.Position =
      (Vector.Normalize (⟨(if inp.KeyD then 1 else 0) - (if inp.KeyA then 1 else 0),
        (if inp.KeyS then 1 else 0) - (if inp.KeyW then 1 else 0)⟩ : Vector ℝ)).Mul p.Speed ∧
    ((Input.direction inp : Vector ℝ) ≠ ⟨0, 0⟩ →
      ((p.Update inp).Position.Sub p.toEntity.Update.Position).Length = |p.Speed| ∧
      (0 ≤ p.Speed →
        ((p.Update inp).Position.Sub p.toEntity.Update.Position).Length = p.Speed)) ∧
    ((Input.direction inp : Vector ℝ) = ⟨0, 0⟩ →
      (p.Update inp).Position.Sub p.toEntity.Update.Position = ⟨0, 0⟩) ∧
    (inp.KeyW = true → inp.KeyS = true →
      ((p.Update inp).Position.Sub p.toEntity.Update.Position).Y = 0 ∧
      (p.Update inp).Position =
        (p.Update { inp with KeyW := false, KeyS := false }).Position) ∧
    (inp.KeyA = true → inp.KeyD = true →
      ((p.Update inp).Position.Sub p.toEntity.Update.Position).X = 0 ∧
      (p.Update inp).Position =
        (p.Update { inp with KeyA := false, KeyD := false }).Position) ∧
    (inp.KeyW = true → inp.KeyD = true → inp.KeyS = false → inp.KeyA = false →
      (p.Update inp).Position.Sub p.toEntity.Update.Position =
        ⟨p.Speed / Real.sqrt 2, -(p.Speed / Real.sqrt 2)⟩) ∧
    (inp.KeyD = true → inp.KeyW = false → inp.KeyS = false → inp.KeyA = false →
      (p.Update inp).Position.Sub p.toEntity.Update.Position = ⟨p.Speed, 0⟩) ∧
    (inp.KeyA = true → inp.KeyW = false → inp.KeyS = false → inp.KeyD = false →
      (p.Update inp).Position.Sub p.toEntity.Update.Position = ⟨-p.Speed, 0⟩) ∧
    (inp.KeyS = true → inp.KeyW = false → inp.KeyA = false → inp.KeyD = false →
      (p.Update inp).Position.Sub p.toEntity.Update.Position = ⟨0, p.Speed⟩) ∧
    (inp.KeyW = true → inp.KeyS = false → inp.KeyA = false → inp.KeyD = false →
      (p.Update inp).Position.Sub p.toEntity.Update.Position = ⟨0, -p.Speed⟩) := by
  have hdisp := Player.Update_displacement p inp
  refine ⟨rfl, hdisp, ?_, ?_, ?_, ?_, ?_, ?_, ?_, ?_, ?_⟩
  · intro hne
    have hl : (Input.direction inp : Vector ℝ).Length ≠ 0 := by
      intro h
      exact hne ((Vector.eq_zero_iff _).mpr ((Vector.Length_eq_zero _).mp h))
    have : ((p.Update inp).Position.Sub p.toEntity.Update.Position).Length = |p.Speed| := by
      rw [hdisp, Vector.Length_Mul, Vector.Length_Normalize _ hl, one_mul]
    exact ⟨this, fun h0 => by rw [this, abs_of_nonneg h0]⟩
  · intro h0
    have hl : (Input.direction inp : Vector ℝ).Length = 0 :=
      (Vector.Length_eq_zero _).mpr ((Vector.eq_zero_iff _).mp h0)
    rw [hdisp]
    simp [Vector.Normalize, hl, Vector.Mul]
  · intro hw hs
    constructor
    · rw [hdisp]
      have : (Input.direction inp : Vector ℝ).Y = 0 := by simp [Input.direction, hw, hs]
      simp [Vector.Mul, Vector.Normalize_Y_zero _ this]
    · apply Player.Update_Position_congr
      simp [Input.direction, hw, hs]
  · intro ha hd
    constructor
    · rw [hdisp]
      have : (Input.direction inp : Vector ℝ).X = 0 := by simp [Input.direction, ha, hd]
      simp [Vector.Mul, Vector.Normalize_X_zero _ this]
    · apply Player.Update_Position_congr
      simp [Input.direction, ha, hd]
  · intro hw hd hs ha
    have hdir : (Input.direction inp : Vector ℝ) = ⟨1, -1⟩ := by
      simp [Input.direction, hw, hd, hs, ha]
    have hlen : (⟨1, -1⟩ : Vector ℝ).Length = Real.sqrt 2 := by
      simp only [Vector.Length, sqrt_real]
      norm_num
    have h2 : (0 : ℝ) < Real.sqrt 2 := Real.sqrt_pos.mpr (by norm_num)
    rw [hdisp, hdir, Vector.Normalize_of_Length _ _ h2 hlen]
    simp only [Vector.Mul, Vector.mk.injEq]
    constructor <;> field_simp
  · intro hd hw hs ha
    have := Player.Update_single_key p inp 1 0 (by simp [Input.direction, hw, hd, hs, ha])
      (by norm_num)
    simpa using this
  · intro ha hw hs hd
    have := Player.Update_single_key p inp (-1) 0 (by simp [Input.direction, hw, hd, hs, ha])
      (by norm_num)
    simpa using this
  · intro hs hw ha hd
    have := Player.Update_single_key p inp 0 1 (by simp [Input.direction, hw, hd, hs, ha])
      (by norm_num)
    simpa using this
  · intro hw hs ha hd
    have := Player.Update_single_key p inp 0 (-1) (by simp [Input.direction, hw, hd, hs, ha])
      (by norm_num)
    simpa using this

theorem Player_Update_moves_witness :
    ((Player.Update (Player.fresh (100 : ℝ) 100)
        ⟨true, false, false, true, false, false⟩).Position.Sub
      (Player.fresh (100 : ℝ) 100).toEntity.Update.Position) =
      ⟨8 / Real.sqrt 2, -(8 / Real.sqrt 2)⟩ ∧
    ((Player.Update (Player.fresh (100 : ℝ) 100)
        ⟨true, false, false, true, false, false⟩).Position.Sub
      (Player.fresh (100 : ℝ) 100).toEntity.Update.Position).Length = 8 ∧
    (Player.Update (Player.fresh (100 : ℝ) 100)
        ⟨true, true, false, true, false, false⟩).Position =
      (Player.Update (Player.fresh (100 : ℝ) 100)
        ⟨false, false, false, true, false, false⟩).Position := by
  have hne : (Input.direction ⟨true, false, false, true, false, false⟩ : Vector ℝ) ≠ ⟨0, 0⟩ := by
    intro h
    have hx := congrArg Vector.X h
    norm_num [Input.direction] at hx
  exact ⟨(Player_Update_moves (Player.fresh 100 100)
      ⟨true, false, false, true, false, false⟩).2.2.2.2.2.2.1 rfl rfl rfl rfl,
    ((Player_Update_moves (Player.fresh 100 100)
      ⟨true, false, false, true, false, false⟩).2.2.1 hne).2 (by norm_num [Player.fresh]),
    ((Player_Update_moves (Player.fresh 100 100)
      ⟨true, true, false, true, false, false⟩).2.2.2.2.1 rfl rfl).2⟩

/-- C18. For a player with `Speed ≥ 0`, after `Player.Update` each coordinate lies in
`[10 - Speed, 4990 + Speed]` (in `[2, 4998]`, hence in `[0, 5000]`, when `Speed = 8`);
`Life` and `Speed` are unchanged.  The clamp range itself can be left: the fresh
player at `(10, 10)` with only `A` pressed ends at `X = 2 < 10`. -/
theorem Player_Update_bounds :
    (∀ (p : Player ℝ) (inp : Input), 0 ≤ p.Speed →
      (10 - p.Speed ≤ (p.Update inp).Position.X ∧ (p.Update inp).Position.X ≤ 4990 + p.Speed) ∧
      (10 - p.Speed ≤ (p.Update inp).Position.Y ∧ (p.Update inp).Position.Y ≤ 4990 + p.Speed) ∧
      (p.Speed = 8 →
        (2 ≤ (p.Update inp).Position.X ∧ (p.Update inp).Position.X ≤ 4998) ∧
        (2 ≤ (p.Update inp).Position.Y ∧ (p.Update inp).Position.Y ≤ 4998) ∧
        (0 ≤ (p.Update inp).Position.X ∧ (p.Update inp).Position.X ≤ 5000) ∧
        (0 ≤ (p.Update inp).Position.Y ∧ (p.Update inp).Position.Y ≤ 5000))) ∧
    (∀ (p : Player ℝ) (inp : Input),
      (p.Update inp).Life = p.Life ∧ (p.Update inp).Speed = p.Speed) ∧
    (Player.Update (Player.fresh (10 : ℝ) 10)
      ⟨false, false, true, false, false, false⟩).Position.X = 2 := by
  have main : ∀ (p : Player ℝ) (inp : Input), 0 ≤ p.Speed →
      (10 - p.Speed ≤ (p.Update inp).Position.X ∧ (p.Update inp).Position.X ≤ 4990 + p.Speed) ∧
      (10 - p.Speed ≤ (p.Update inp).Position.Y ∧
        (p.Update inp).Position.Y ≤ 4990 + p.Speed) := by
    intro p inp hs
    have hc := Entity_clamp_range p.toEntity
    obtain ⟨hx, hy⟩ := Vector.Normalize_abs_le (Input.direction inp : Vector ℝ)
    rw [abs_le] at hx hy
    rw [Player.Update_result]
    simp only [Vector.Add, Vector.Mul]
    refine ⟨⟨?_, ?_⟩, ⟨?_, ?_⟩⟩ <;> nlinarith [hc.1.1, hc.1.2, hc.2.1, hc.2.2]
  refine ⟨?_, ?_, ?_⟩
  · intro p inp hs
    obtain ⟨hx, hy⟩ := main p inp hs
    refine ⟨hx, hy, ?_⟩
    intro h8
    rw [h8] at hx hy
    refine ⟨⟨?_, ?_⟩, ⟨?_, ?_⟩, ⟨?_, ?_⟩, ⟨?_, ?_⟩⟩ <;> linarith [hx.1, hx.2, hy.1, hy.2]
  · intro p inp
    rw [Player.Update_result]
    exact ⟨rfl, rfl⟩
  · have hc : (Player.fresh (10 : ℝ) 10).toEntity.Update = (Player.fresh (10 : ℝ) 10).toEntity :=
      Entity.Update_of_inside _ (by norm_num [Player.fresh]) (by norm_num [Player.fresh])
        (by norm_num [Player.fresh]) (by norm_num [Player.fresh])
    have hdir : (Input.direction ⟨false, false, true, false, false, false⟩ : Vector ℝ)
        = ⟨-1, 0⟩ := by
      simp [Input.direction]
    have hlen : (⟨-1, 0⟩ : Vector ℝ).Length = 1 :=
      Vector.Length_of_sq _ 1 (by norm_num) (by norm_num)
    rw [Player.Update_result, hc, hdir, Vector.Normalize_of_Length _ _ (by norm_num) hlen]
    norm_num [Vector.Add, Vector.Mul, Player.fresh]

theorem Player_Update_bounds_witness :
    2 ≤ (Player.Update (Player.fresh (3 : ℝ) 4000)
      ⟨true, false, true, false, false, false⟩).Position.X :=
  ((Player_Update_bounds.1 (Player.fresh 3 4000) ⟨true, false, true, false, false, false⟩
    (by norm_num [Player.fresh])).2.2 rfl).1.1

/-! ## Ammunition -/

/-- The three things `Enemy.Update` can do to `Bullets`: keep it (no projectile),
lower it by one while appending one projectile, or set it to 100 in the
snap-to-origin branch. -/
theorem Enemy.Update_Bullets_cases (e : Enemy ℝ) (p : Player ℝ) (g : Game ℝ) (now : Time) :
    ((e.Update p g now).1.Bullets = e.Bullets ∧
      (e.Update p g now).2.2.Projectiles = g.Projectiles) ∨
    (0 < e.Bullets ∧ (e.Update p g now).1.Bullets = e.Bullets - 1 ∧
      ∃ q, (e.Update p g now).2.2.Projectiles = g.Projectiles ++ [q]) ∨
    ((e.Update p g now).1.Bullets = 100 ∧
      (e.Update p g now).2.2.Projectiles = g.Projectiles ∧
      e.Typ = GUARD ∧ 800 ≤ (p.Position.Sub e.toEntity.Update.Position).Length ∧
      (e.toEntity.Update.Position.Sub e.Origin).Length ≤ 5 ∧
      (e.Update p g now).1.State = "IDLE" ∧ (e.Update p g now).1.Position = e.Origin) := by
  by_cases h20 : (p.Position.Sub e.toEntity.Update.Position).Length < 20
  · rw [Enemy.Update_melee e p g now h20]
    split_ifs <;> exact Or.inl ⟨rfl, rfl⟩
  · by_cases h400 : (p.Position.Sub e.toEntity.Update.Position).Length < 400
    · rw [Enemy.Update_close e p g now (not_lt.mp h20) h400]
      exact Or.inl ⟨rfl, rfl⟩
    · by_cases h800 : (p.Position.Sub e.toEntity.Update.Position).Length < 800
      · rw [Enemy.Update_range e p g now (not_lt.mp h400) h800]
        split_ifs with hb
        · exact Or.inr (Or.inl ⟨hb.1, rfl, _, rfl⟩)
        · exact Or.inl ⟨rfl, rfl⟩
      · by_cases hg : e.Typ = GUARD
        · rw [Enemy.Update_far_guard e p g now (not_lt.mp h800) hg]
          split_ifs with ho
          · exact Or.inl ⟨rfl, rfl⟩
          · exact Or.inr (Or.inr ⟨rfl, rfl, hg, not_lt.mp h800, not_lt.mp ho, rfl, rfl⟩)
        · rw [Enemy.Update_far_other e p g now (not_lt.mp h800) hg]
          exact Or.inl ⟨rfl, rfl⟩

/-- C19. `0 ≤ Bullets ≤ 100` is preserved by `Enemy.Update`.  From such a state
`Bullets` drops by at most 1; it drops only together with exactly one appended
projectile; it rises only by being set to 100 in the snap-to-origin branch (a
`GUARD` with the player at distance `≥ 800` and the clamped position within 5 units
of `Origin`).  `Origin`, `Type` and `Speed` are never changed. -/
theorem Enemy_Update_Bullets_invariant (e : Enemy ℝ) (p : Player ℝ) (g : Game ℝ) (now : Time)
    (h0 : 0 ≤ e.Bullets) (h100 : e.Bullets ≤ 100) :
    (0 ≤ (e.Update p g now).1.Bullets ∧ (e.Update p g now).1.Bullets ≤ 100) ∧
    e.Bullets - 1 ≤ (e.Update p g now).1.Bullets ∧
    ((e.Update p g now).1.Bullets < e.Bullets →
      (e.Update p g now).1.Bullets = e.Bullets - 1 ∧
      ∃ q, (e.Update p g now).2.2.Projectiles = g.Projectiles ++ [q]) ∧
    (e.Bullets < (e.Update p g now).1.Bullets →
      (e.Update p g now).1.Bullets = 100 ∧ e.Typ = GUARD ∧
      800 ≤ (p.Position.Sub e.toEntity.Update.Position).Length ∧
      (e.toEntity.Update.Position.Sub e.Origin).Length ≤ 5 ∧
      (e.Update p g now).1.State = "IDLE" ∧ (e.Update p g now).1.Position = e.Origin) ∧
    (e.Update p g now).1.Origin = e.Origin ∧
    (e.Update p g now).1.Typ = e.Typ ∧
    (e.Update p g now).1.Speed = e.Speed := by
  obtain ⟨k1, k2, k3, -, -⟩ := Enemy.Update_keeps e p g now
  rcases Enemy.Update_Bullets_cases e p g now with ⟨hb, -⟩ | ⟨hpos, hb, q, hq⟩ |
    ⟨hb, -, hg, hd, ho, hs, hp⟩
  · rw [hb]
    exact ⟨⟨h0, h100⟩, by omega, fun h => absurd h (lt_irrefl _),
      fun h => absurd h (lt_irrefl _), k1, k2, k3⟩
  · rw [hb]
    exact ⟨⟨by omega, by omega⟩, le_refl _, fun _ => ⟨rfl, q, hq⟩, fun h => by omega, k1, k2, k3⟩
  · rw [hb]
    exact ⟨⟨by omega, by omega⟩, by omega, fun h => by omega,
      fun _ => ⟨rfl, hg, hd, ho, hs, hp⟩, k1, k2, k3⟩

theorem Enemy_Update_Bullets_invariant_witness :
    0 ≤ (Enemy.Update (Enemy.spawned 100 100) (Player.fresh 600 100) (Game.zero : Game ℝ)
      1000).1.Bullets ∧
    (Enemy.Update (Enemy.spawned 100 100) (Player.fresh 600 100) (Game.zero : Game ℝ)
      1000).1.Bullets ≤ 100 :=
  (Enemy_Update_Bullets_invariant (Enemy.spawned 100 100) (Player.fresh 600 100) Game.zero 1000
    (by decide) (by decide)).1

/-! ## Origins next to the wall -/

theorem Vector.Length_Sub_step_abs (a b : Vector ℝ) (s : ℝ) (hne : (b.Sub a).Length ≠ 0) :
    (b.Sub (a.Add ((b.Sub a).Normalize.Mul s))).Length = |(b.Sub a).Length - s| := by
  have hpos : 0 < (b.Sub a).Length := lt_of_le_of_ne (Vector.Length_nonneg _) (Ne.symm hne)
  have hvec : b.Sub (a.Add ((b.Sub a).Normalize.Mul s)) =
      (b.Sub a).Mul (1 - s / (b.Sub a).Length) := by
    rw [Vector.Normalize_of_ne _ hne]
    generalize (b.Sub a).Length = d at hne
    simp only [Vector.Sub, Vector.Add, Vector.Mul, Vector.mk.injEq]
    constructor <;> field_simp <;> ring
  rw [hvec, Vector.Length_Mul]
  have h1 : 1 - s / (b.Sub a).Length = ((b.Sub a).Length - s) / (b.Sub a).Length := by
    field_simp
  rw [h1, abs_div, abs_of_pos hpos]
  field_simp

/-- The clamped position of an enemy is more than 5 units from an origin that has a
coordinate below 5 or above 4995. -/
theorem Enemy.far_from_wall_origin (e : Enemy ℝ)
    (ho : e.Origin.X < 5 ∨ 4995 < e.Origin.X ∨ e.Origin.Y < 5 ∨ 4995 < e.Origin.Y) :
    5 < (e.toEntity.Update.Position.Sub e.Origin).Length := by
  obtain ⟨⟨hx1, hx2⟩, ⟨hy1, hy2⟩⟩ := Entity_clamp_range e.toEntity
  have hX := Vector.abs_X_le_Length (e.toEntity.Update.Position.Sub e.Origin)
  have hY := Vector.abs_Y_le_Length (e.toEntity.Update.Position.Sub e.Origin)
  simp only [Vector.Sub] at hX hY
  rw [abs_le] at hX hY
  simp only [Vector.Sub]
  rcases ho with h | h | h | h
  · linarith [hX.2]
  · linarith [hX.1]
  · linarith [hY.2]
  · linarith [hY.1]

/-- C17, as stated, fails on "the Position is not Origin": the `GUARD` enemy
`fastNearWall` has origin `(0, 10)` (a coordinate below 5), the player is 1990 ≥ 800
units from its clamped position, and its patrol step of `Speed / 2 = 10` lands it
exactly on its origin. -/
theorem Enemy_fast_patrol_reaches_origin :
    (Enemy.fastNearWall : Enemy ℝ).Typ = GUARD ∧
    (Enemy.fastNearWall : Enemy ℝ).Origin.X < 5 ∧
    800 ≤ ((Player.fresh (2000 : ℝ) 10).Position.Sub
      (Enemy.fastNearWall : Enemy ℝ).toEntity.Update.Position).Length ∧
    (Enemy.Update Enemy.fastNearWall (Player.fresh 2000 10) (Game.zero : Game ℝ) 0).1.Position =
      (Enemy.fastNearWall : Enemy ℝ).Origin ∧
    (Enemy.Update Enemy.fastNearWall (Player.fresh 2000 10) (Game.zero : Game ℝ) 0).1.State =
      "PATROL" := by
  have hc : (Enemy.fastNearWall : Enemy ℝ).toEntity.Update =
      (Enemy.fastNearWall : Enemy ℝ).toEntity :=
    Entity.Update_of_inside _ (by norm_num [Enemy.fastNearWall])
      (by norm_num [Enemy.fastNearWall]) (by norm_num [Enemy.fastNearWall])
      (by norm_num [Enemy.fastNearWall])
  have hd : ((Player.fresh (2000 : ℝ) 10).Position.Sub
      (Enemy.fastNearWall : Enemy ℝ).toEntity.Update.Position).Length = 1990 := by
    rw [hc]
    exact Vector.Length_of_sq _ 1990 (by norm_num)
      (by norm_num [Vector.Sub, Player.fresh, Enemy.fastNearWall])
  have h1 : ((Enemy.fastNearWall : Enemy ℝ).toEntity.Update.Position.Sub
      (Enemy.fastNearWall : Enemy ℝ).Origin).Length = 10 := by
    rw [hc]
    exact Vector.Length_of_sq _ 10 (by norm_num) (by norm_num [Vector.Sub, Enemy.fastNearWall])
  have h2 : ((Enemy.fastNearWall : Enemy ℝ).Origin.Sub
      (Enemy.fastNearWall : Enemy ℝ).toEntity.Update.Position).Length = 10 := by
    rw [Vector.Length_Sub_comm, h1]
  refine ⟨rfl, by norm_num [Enemy.fastNearWall], by rw [hd]; norm_num, ?_, ?_⟩
  · rw [Enemy.Update_far_guard _ _ _ _ (by rw [hd]; norm_num) rfl, if_pos (by rw [h1]; norm_num),
      Vector.Normalize_of_Length _ 10 (by norm_num) h2, hc]
    norm_num [Vector.Sub, Vector.Add, Vector.Mul, Enemy.fastNearWall]
  · rw [Enemy.Update_far_guard _ _ _ _ (by rw [hd]; norm_num) rfl, if_pos (by rw [h1]; norm_num)]

/-- C17, amended. For a `GUARD` enemy whose `Origin` has a coordinate below 5 or
above 4995, the clamped position is more than 5 units from `Origin`, so no call of
`Enemy.Update` takes the snap-to-origin branch: in every call `Bullets` is kept or
lowered by one, never refilled.  With the player at distance `≥ 800` from the
clamped position the state after the call is `"PATROL"`, not `"IDLE"`, `Bullets` is
unchanged, and the position is not `Origin` unless `Speed / 2` equals the clamped
distance to `Origin`; in particular it is not `Origin` when `Speed ≤ 10`, as for
the spawner's `Speed = 6`. -/
theorem Enemy_wall_origin_never_snaps (e : Enemy ℝ) (hg : e.Typ = GUARD)
    (ho : e.Origin.X < 5 ∨ 4995 < e.Origin.X ∨ e.Origin.Y < 5 ∨ 4995 < e.Origin.Y) :
    5 < (e.toEntity.Update.Position.Sub e.Origin).Length ∧
    (∀ (p : Player ℝ) (g : Game ℝ) (now : Time),
      (e.Update p g now).1.Bullets = e.Bullets ∨
        (0 < e.Bullets ∧ (e.Update p g now).1.Bullets = e.Bullets - 1)) ∧
    (∀ (p : Player ℝ) (g : Game ℝ) (now : Time),
      800 ≤ (p.Position.Sub e.toEntity.Update.Position).Length →
        (e.Update p g now).1.State = "PATROL" ∧
        (e.Update p g now).1.State ≠ "IDLE" ∧
        (e.Update p g now).1.Bullets = e.Bullets ∧
        (e.Speed / 2 ≠ (e.toEntity.Update.Position.Sub e.Origin).Length →
          (e.Update p g now).1.Position ≠ e.Origin) ∧
        (e.Speed ≤ 10 → (e.Update p g now).1.Position ≠ e.Origin)) := by
  have hfar := Enemy.far_from_wall_origin e ho
  have hfar2 : 5 < (e.Origin.Sub e.toEntity.Update.Position).Length := by
    rw [Vector.Length_Sub_comm]
    exact hfar
  have hne : (e.Origin.Sub e.toEntity.Update.Position).Length ≠ 0 := by
    intro h
    rw [h] at hfar2
    norm_num at hfar2
  refine ⟨hfar, ?_, ?_⟩
  · intro p g now
    rcases Enemy.Update_Bullets_cases e p g now with ⟨hb, -⟩ | ⟨hpos, hb, -⟩ |
      ⟨-, -, -, -, hle, -⟩
    · exact Or.inl hb
    · exact Or.inr ⟨hpos, hb⟩
    · exact absurd hfar (not_lt.mpr hle)
  · intro p g now hd
    have hpos : ∀ s : ℝ, s ≠ (e.toEntity.Update.Position.Sub e.Origin).Length →
        e.toEntity.Update.Position.Add
          ((e.Origin.Sub e.toEntity.Update.Position).Normalize.Mul s) ≠ e.Origin := by
      intro s hs heq
      have hlen := Vector.Length_Sub_step_abs e.toEntity.Update.Position e.Origin s hne
      rw [heq] at hlen
      have hz : (e.Origin.Sub e.Origin).Length = 0 := by
        apply (Vector.Length_eq_zero _).mpr
        simp [Vector.Sub]
      rw [hz, Vector.Length_Sub_comm] at hlen
      have := abs_eq_zero.mp hlen.symm
      exact hs (by linarith)
    rw [Enemy.Update_far_guard e p g now hd hg, if_pos hfar, Entity.Update_Speed]
    have hstr : ("PATROL" : String) ≠ "IDLE" := by decide
    refine ⟨rfl, hstr, rfl, ?_, ?_⟩
    · intro hs
      exact hpos _ hs
    · intro hs
      exact hpos _ (by intro h; linarith)

theorem Enemy_wall_origin_never_snaps_witness :
    (Enemy.Update (Enemy.spawned 0 10) (Player.fresh 2000 10) (Game.zero : Game ℝ) 0).1.State =
      "PATROL" := by
  have hd : ((Player.fresh (2000 : ℝ) 10).Position.Sub
      (Enemy.spawned (0 : ℝ) 10).toEntity.Update.Position).Length = 1990 := by
    rw [Enemy.spawned_clamp]
    exact Vector.Length_of_sq _ 1990 (by norm_num) (by norm_num [Vector.Sub, Player.fresh])
  exact ((Enemy_wall_origin_never_snaps (Enemy.spawned 0 10) rfl
    (Or.inl (by norm_num [Enemy.spawned]))).2.2 (Player.fresh 2000 10) Game.zero 0
    (by rw [hd]; norm_num)).1

/-! ## Projectile hits -/

theorem Game.projectileLoop_Life (pre : List (Projectile ℝ)) :
    ∀ (g : Game ℝ) (suf : List (Projectile ℝ)), g.Projectiles = pre ++ suf →
      ∃ g1, g.projectileLoop pre.length = some g1 ∧
        g1.Player.toEntity = g.Player.toEntity ∧
        g1.Player.Life = g.Player.Life -
          10 * ((pre.map Projectile.Update).countP
            (fun q => q.CollidesWith g.Player.toEntity) : Nat) := by
  induction pre using List.reverseRecOn with
  | nil =>
    intro g suf _
    exact ⟨g, rfl, rfl, by simp⟩
  | append_singleton pre p ih =>
    intro g suf h
    have h1 : g.Projectiles = pre ++ p :: suf := by simpa using h
    obtain ⟨g1, hstep, hps, hent, hlife⟩ := Game.projectileStep_at g pre p suf h1
    rw [List.length_append, List.length_singleton]
    have hnext : ∃ suf1, g1.Projectiles = pre ++ suf1 := by
      by_cases hr : p.Update.ShouldBeRemoved = true
      · exact ⟨suf, by rw [hps, if_pos hr]⟩
      · exact ⟨p.Update :: suf, by rw [hps, if_neg hr]⟩
    obtain ⟨suf1, hsuf1⟩ := hnext
    obtain ⟨g2, hloop, hent2, hlife2⟩ := ih g1 suf1 hsuf1
    refine ⟨g2, ?_, hent2.trans hent, ?_⟩
    · simp [Game.projectileLoop, hstep, hloop]
    · rw [hlife2, hlife, hent, List.map_append, List.countP_append]
      by_cases hc : p.Update.CollidesWith g.Player.toEntity = true
      · simp only [hc, if_true, List.map_cons, List.map_nil, List.countP_cons, List.countP_nil]
        push_cast
        simp
        ring
      · simp only [hc, if_false, List.map_cons, List.map_nil, List.countP_cons, List.countP_nil]
        simp

theorem Game.projectileLoop_result (g : Game ℝ) :
    ∃ g1, g.projectileLoop g.Projectiles.length = some g1 ∧
      g1.Projectiles = projectilesAfterTick g.Projectiles ∧
      g1.Player.toEntity = g.Player.toEntity ∧
      g1.Player.Life = g.Player.Life -
        10 * ((g.Projectiles.map Projectile.Update).countP
          (fun q => q.CollidesWith g.Player.toEntity) : Nat) := by
  obtain ⟨g1, h1, h2, -⟩ := Game.projectileLoop_append g.Projectiles g [] (by simp)
  obtain ⟨g2, k1, k2, k3⟩ := Game.projectileLoop_Life g.Projectiles g [] (by simp)
  rw [h1] at k1
  cases k1
  exact ⟨g1, h1, by simpa using h2, k2, k3⟩

theorem Game.projectileLoop_hit_le (g g1 : Game ℝ)
    (hloop : g.projectileLoop g.Projectiles.length = some g1)
    (hhit : ∃ p ∈ g.Projectiles, p.Update.CollidesWith g.Player.toEntity = true) :
    g1.Player.Life ≤ g.Player.Life - 10 := by
  obtain ⟨g2, k1, -, -, k4⟩ := Game.projectileLoop_result g
  rw [hloop] at k1
  cases k1
  have hpos : 0 < (g.Projectiles.map Projectile.Update).countP
      (fun q => q.CollidesWith g.Player.toEntity) := by
    rw [List.countP_pos_iff]
    obtain ⟨p, hp, hc⟩ := hhit
    exact ⟨p.Update, List.mem_map_of_mem _ hp, hc⟩
  rw [k4]
  omega

/-- C14. The projectile pass of `Game.Update` returns normally and lowers
`Player.Life` by exactly `10 * k`, where `k` counts the projectiles whose advanced
position is at distance `< 10` from the player's position (which the pass does not
move).  A hit does not remove the projectile: such a projectile whose advanced
position is inside `[0,5000]²` is in `g.Projectiles` after the pass.  Hence a
surviving projectile whose next advanced position is again within 10 units takes
at least 10 more off `Life` in the next pass. -/
theorem Game_projectileLoop_hits (g : Game ℝ) :
    (∀ (q : Projectile ℝ) (e : Entity ℝ),
      q.CollidesWith e = true ↔ (q.Position.Sub e.Position).Length < 10) ∧
    ∃ g1, g.projectileLoop g.Projectiles.length = some g1 ∧
      g1.Player.toEntity = g.Player.toEntity ∧
      g1.Player.Life = g.Player.Life -
        10 * ((g.Projectiles.map Projectile.Update).countP
          (fun q => q.CollidesWith g.Player.toEntity) : Nat) ∧
      (∀ p ∈ g.Projectiles, p.Update.CollidesWith g.Player.toEntity = true →
        (0 ≤ p.Update.Position.X ∧ p.Update.Position.X ≤ 5000 ∧
          0 ≤ p.Update.Position.Y ∧ p.Update.Position.Y ≤ 5000) →
        p.Update ∈ g1.Projectiles) ∧
      ((∃ q ∈ g1.Projectiles, q.Update.CollidesWith g1.Player.toEntity = true) →
        ∃ g2, g1.projectileLoop g1.Projectiles.length = some g2 ∧
          g2.Player.Life ≤ g1.Player.Life - 10) := by
  refine ⟨fun q e => by simp [Projectile.CollidesWith], ?_⟩
  obtain ⟨g1, h1, h2, h3, h4⟩ := Game.projectileLoop_result g
  refine ⟨g1, h1, h3, h4, ?_, ?_⟩
  · intro p hp _ hin
    rw [h2, projectilesAfterTick, List.mem_filter]
    exact ⟨List.mem_map_of_mem _ hp, by simpa [Projectile.inArena] using hin⟩
  · intro hhit
    obtain ⟨g2, k1, -⟩ := Game.projectileLoop_result g1
    exact ⟨g2, k1, Game.projectileLoop_hit_le g1 g2 k1 hhit⟩

theorem Game_projectileLoop_hits_witness :
    ∃ g1, Game.projectileLoop 1
        ({ (Game.zero : Game ℝ) with
          Player := Player.fresh 100 100, Projectiles := [⟨⟨80, 100⟩, ⟨20, 0⟩⟩] }) = some g1 ∧
      (⟨⟨100, 100⟩, ⟨20, 0⟩⟩ : Projectile ℝ) ∈ g1.Projectiles := by
  obtain ⟨g1, h1, -, -, h4, -⟩ := (Game_projectileLoop_hits
    ({ (Game.zero : Game ℝ) with
      Player := Player.fresh 100 100, Projectiles := [⟨⟨80, 100⟩, ⟨20, 0⟩⟩] })).2
  refine ⟨g1, h1, ?_⟩
  have hu : Projectile.Update (⟨⟨80, 100⟩, ⟨20, 0⟩⟩ : Projectile ℝ) = ⟨⟨100, 100⟩, ⟨20, 0⟩⟩ := by
    norm_num [Projectile.Update, Vector.Add]
  have hc : Projectile.CollidesWith (⟨⟨100, 100⟩, ⟨20, 0⟩⟩ : Projectile ℝ)
      (Player.fresh (100 : ℝ) 100).toEntity = true := by
    have hl : ((⟨⟨100, 100⟩, ⟨20, 0⟩⟩ : Projectile ℝ).Position.Sub
        (Player.fresh (100 : ℝ) 100).toEntity.Position).Length = 0 :=
      Vector.Length_of_sq _ 0 (le_refl _) (by norm_num [Vector.Sub, Player.fresh])
    simp only [Projectile.CollidesWith, hl]
    norm_num
  have := h4 ⟨⟨80, 100⟩, ⟨20, 0⟩⟩ (by simp) (by rw [hu]; exact hc) (by rw [hu]; norm_num)
  rw [hu] at this
  exact this

/-! ## The debug toggle -/

theorem Game.spawn_keeps (g : Game ℝ) (now : Time) (rnd : Rand) :
    (g.spawn now rnd).Debug = g.Debug ∧ (g.spawn now rnd).Key1Pressed = g.Key1Pressed ∧
    (g.spawn now rnd).Player = g.Player ∧ (g.spawn now rnd).Projectiles = g.Projectiles := by
  by_cases h : Time.Since now g.LastSpawnTime > 10 * Second
  · rw [Game.spawn_of_overdue g now rnd h]
    exact ⟨rfl, rfl, rfl, rfl⟩
  · rw [Game.spawn_of_not_overdue g now rnd h]
    exact ⟨rfl, rfl, rfl, rfl⟩

/-- With the player alive, `Game.Update` returns normally and its effect on `Debug`
and `Key1Pressed` is that of the debug-toggle block alone. -/
theorem Game.Update_latch (g : Game ℝ) (inp : Input) (now : Time) (rnd : Rand)
    (hlife : 0 < g.Player.Life) :
    ∃ g1, g.Update inp now rnd = some g1 ∧
      g1.Debug = (g.toggleDebug inp).Debug ∧
      g1.Key1Pressed = (g.toggleDebug inp).Key1Pressed := by
  have hbe := Game.beforeEnemies_of_alive g inp now rnd hlife
  obtain ⟨u1, -, -⟩ := Game.updateEnemies_keeps now (g.beforeEnemies inp now rnd).1
  obtain ⟨g6, hloop, -, -⟩ := Game.projectileLoop_append
    (g.beforeProjectiles inp now rnd).Projectiles (g.beforeProjectiles inp now rnd) [] (by simp)
  obtain ⟨f1, -⟩ := Game.projectileLoop_keeps _ _ _ hloop
  obtain ⟨s1, s2, -, -⟩ := Game.spawn_keeps g6 now (g.beforeEnemies inp now rnd).2
  have hD : (Game.toggleDebug { g with Player := g.Player.Update inp } inp).Debug =
      (g.toggleDebug inp).Debug := by
    unfold Game.toggleDebug
    split_ifs <;> rfl
  have hK : (Game.toggleDebug { g with Player := g.Player.Update inp } inp).Key1Pressed =
      (g.toggleDebug inp).Key1Pressed := by
    unfold Game.toggleDebug
    split_ifs <;> rfl
  refine ⟨g6.spawn now (g.beforeEnemies inp now rnd).2, ?_, ?_, ?_⟩
  · rw [Game.Update_eq, hloop, Option.map_some']
  · have a : g6.Debug = (g.beforeProjectiles inp now rnd).Debug := f1.2.2.2.2.1
    have b : (g.beforeProjectiles inp now rnd).Debug = (g.beforeEnemies inp now rnd).1.Debug :=
      u1.2.2.2.2.1
    rw [s1, a, b, hbe]
    exact hD
  · have a : g6.Key1Pressed = (g.beforeProjectiles inp now rnd).Key1Pressed := f1.2.2.2.2.2
    have b : (g.beforeProjectiles inp now rnd).Key1Pressed =
        (g.beforeEnemies inp now rnd).1.Key1Pressed := u1.2.2.2.2.2
    rw [s2, a, b, hbe]
    exact hK

theorem Game.toggleDebug_held (g : Game ℝ) (inp : Input) (hc : inp.KeyControlLeft = true)
    (hk : inp.Key1 = true) :
    (g.toggleDebug inp).Key1Pressed = true ∧
    (g.Key1Pressed = true → (g.toggleDebug inp).Debug = g.Debug) ∧
    (g.Key1Pressed = false → (g.toggleDebug inp).Debug = !g.Debug) := by
  unfold Game.toggleDebug
  cases hp : g.Key1Pressed <;> simp [hc, hk, hp]

theorem Game.runTicks_cons (g g1 : Game ℝ) (t : Tick) (ts : List Tick)
    (h : g.Update t.inp t.now t.rnd = some g1) :
    g.runTicks (t :: ts) = g1.runTicks ts := by
  simp [Game.runTicks, h]

/-- Once the latch is set, ticks with both keys held and the player alive leave
`Debug` and the latch as they are. -/
theorem Game.runTicks_held (ts : List Tick) : ∀ (g : Game ℝ), g.Key1Pressed = true →
    (∀ u ∈ ts, u.inp.KeyControlLeft = true ∧ u.inp.Key1 = true) →
    (∀ k, k < ts.length → ∀ gk, g.runTicks (ts.take k) = some gk → 0 < gk.Player.Life) →
    ∀ k, k ≤ ts.length →
      ∃ gk, g.runTicks (ts.take k) = some gk ∧ gk.Debug = g.Debug ∧ gk.Key1Pressed = true := by
  induction ts with
  | nil =>
    intro g hk _ _ k hle
    have : k = 0 := by simpa using hle
    subst this
    exact ⟨g, rfl, rfl, hk⟩
  | cons t ts ih =>
    intro g hk hheld halive k hle
    cases k with
    | zero => exact ⟨g, rfl, rfl, hk⟩
    | succ k =>
      have h0 : 0 < g.Player.Life := halive 0 (by simp) g rfl
      obtain ⟨g1, hu, hD, hK⟩ := Game.Update_latch g t.inp t.now t.rnd h0
      obtain ⟨hc, h1⟩ := hheld t (List.mem_cons_self _ _)
      obtain ⟨l1, l2, -⟩ := Game.toggleDebug_held g t.inp hc h1
      rw [l1] at hK
      rw [l2 hk] at hD
      obtain ⟨gk, r1, r2, r3⟩ := ih g1 hK (fun u hu1 => hheld u (List.mem_cons_of_mem _ hu1))
        (fun j hj gj hgj => halive (j + 1) (by simpa using hj) gj
          (by rw [List.take_succ_cons, Game.runTicks_cons g g1 t _ hu]; exact hgj))
        k (by simpa using hle)
      exact ⟨gk, by rw [List.take_succ_cons, Game.runTicks_cons g g1 t _ hu]; exact r1,
        r2.trans hD, r3⟩

/-- C13. Along a run of consecutive `Game.Update` ticks throughout which the modifier
key and the toggle key are both pressed, with the player alive at the start of every
tick, no tick panics and `Debug` after every tick of the run equals `Debug` after
the first tick: the flag changes at most once, and only on the first tick. -/
theorem Game_debug_steady_while_held (g : Game ℝ) (ts : List Tick)
    (hheld : ∀ u ∈ ts, u.inp.KeyControlLeft = true ∧ u.inp.Key1 = true)
    (halive : ∀ k, k < ts.length → ∀ gk, g.runTicks (ts.take k) = some gk →
      0 < gk.Player.Life)
    (k : Nat) (h1 : 1 ≤ k) (hk : k ≤ ts.length) :
    ∃ g1 gk, g.runTicks (ts.take 1) = some g1 ∧ g.runTicks (ts.take k) = some gk ∧
      gk.Debug = g1.Debug := by
  cases ts with
  | nil => simp at hk; omega
  | cons t ts =>
    cases k with
    | zero => omega
    | succ k =>
      have h0 : 0 < g.Player.Life := halive 0 (by simp) g rfl
      obtain ⟨g1, hu, -, hK⟩ := Game.Update_latch g t.inp t.now t.rnd h0
      obtain ⟨hc, hk1⟩ := hheld t (List.mem_cons_self _ _)
      rw [(Game.toggleDebug_held g t.inp hc hk1).1] at hK
      obtain ⟨gk, r1, r2, -⟩ := Game.runTicks_held ts g1 hK
        (fun u hu1 => hheld u (List.mem_cons_of_mem _ hu1))
        (fun j hj gj hgj => halive (j + 1) (by simpa using hj) gj
          (by rw [List.take_succ_cons, Game.runTicks_cons g g1 t _ hu]; exact hgj))
        k (by simpa using hk)
      refine ⟨g1, gk, ?_, ?_, r2⟩
      · rw [List.take_succ_cons, Game.runTicks_cons g g1 t _ hu]
        simp [Game.runTicks]
      · rw [List.take_succ_cons, Game.runTicks_cons g g1 t _ hu]
        exact r1

theorem Game.toggleDebug_values (g : Game ℝ) (inp : Input) :
    (g.toggleDebug inp).Debug =
      (if inp.KeyControlLeft && inp.Key1 && !g.Key1Pressed then !g.Debug else g.Debug) ∧
    (g.toggleDebug inp).Key1Pressed = (inp.KeyControlLeft && (inp.Key1 || g.Key1Pressed)) := by
  unfold Game.toggleDebug
  cases hc : inp.KeyControlLeft <;> cases hk : inp.Key1 <;> cases hp : g.Key1Pressed <;>
    simp [hc, hk, hp]

/-- A tick of a game without enemies and projectiles, with the player alive and the
spawn timer not overdue, changes nothing but the player's position, the camera and
the debug latch. -/
theorem Game.Update_quiet (g : Game ℝ) (inp : Input) (now : Time) (rnd : Rand)
    (hE : g.Enemies = []) (hP : g.Projectiles = []) (hl : 0 < g.Player.Life)
    (hs : ¬ Time.Since now g.LastSpawnTime > 10 * Second) :
    ∃ g1, g.Update inp now rnd = some g1 ∧ g1.Enemies = [] ∧ g1.Projectiles = [] ∧
      g1.Player.Life = g.Player.Life ∧ g1.LastSpawnTime = g.LastSpawnTime ∧
      g1.Debug =
        (if inp.KeyControlLeft && inp.Key1 && !g.Key1Pressed then !g.Debug else g.Debug) ∧
      g1.Key1Pressed = (inp.KeyControlLeft && (inp.Key1 || g.Key1Pressed)) := by
  have hbe := Game.beforeEnemies_of_alive g inp now rnd hl
  obtain ⟨t1, t2, t3⟩ := Game.toggleDebug_keeps { g with Player := g.Player.Update inp } inp
  have hE1 : (g.beforeEnemies inp now rnd).1.Enemies = [] := by
    rw [hbe]
    exact t1.trans hE
  have hup : (g.beforeEnemies inp now rnd).1.updateEnemies now = (g.beforeEnemies inp now rnd).1 :=
    Game.updateEnemies_nil _ _ hE1
  have hP1 : (g.beforeProjectiles inp now rnd).Projectiles = [] := by
    unfold Game.beforeProjectiles
    rw [hup, hbe]
    exact t3.trans hP
  have hT1 : (g.beforeProjectiles inp now rnd).LastSpawnTime = g.LastSpawnTime := by
    unfold Game.beforeProjectiles
    rw [hup, hbe]
    exact t2
  have hL1 : (g.beforeProjectiles inp now rnd).Player.Life = g.Player.Life := by
    unfold Game.beforeProjectiles
    rw [hup, hbe]
    show (Game.toggleDebug { g with Player := g.Player.Update inp } inp).Player.Life = _
    rw [Game.toggleDebug_Player, Player.Update_Life]
  have hE2 : (g.beforeProjectiles inp now rnd).Enemies = [] := by
    unfold Game.beforeProjectiles
    rw [hup]
    exact hE1
  obtain ⟨g1, hu, hD, hK⟩ := Game.Update_latch g inp now rnd hl
  rw [(Game.toggleDebug_values g inp).1] at hD
  rw [(Game.toggleDebug_values g inp).2] at hK
  have hu2 := hu
  rw [Game.Update_eq, hP1, List.length_nil] at hu2
  simp only [Game.projectileLoop, Option.map_some', Option.some.injEq] at hu2
  rw [Game.spawn_of_not_overdue _ _ _ (by rw [hT1]; exact hs)] at hu2
  subst hu2
  exact ⟨_, hu, hE2, hP1, hL1, hT1, hD, hK⟩

/-- C12 fails on the code. From a freshly initialised game, three ticks with
(modifier, toggle key) pressed as (yes, yes), (yes, no), (yes, yes): the first tick
sets `Debug`; on the third tick the toggle key goes from up to down with the modifier
held, yet `Debug` does not flip, because `Key1Pressed` is only cleared when the
modifier is released. -/
theorem Game_debug_misses_second_press :
    ∃ g1 g2 g3 : Game ℝ,
      ((Game.zero : Game ℝ).Init (fun k => k)).1.Update
        ⟨false, false, false, false, true, true⟩ 1 (fun k => k) = some g1 ∧
      g1.Update ⟨false, false, false, false, true, false⟩ 2 (fun k => k) = some g2 ∧
      g2.Update ⟨false, false, false, false, true, true⟩ 3 (fun k => k) = some g3 ∧
      ((Game.zero : Game ℝ).Init (fun k => k)).1.Debug = false ∧
      g1.Debug = true ∧ g2.Debug = true ∧ g3.Debug = true := by
  obtain ⟨g1, u1, e1, p1, l1, s1, d1, k1⟩ := Game.Update_quiet
    ((Game.zero : Game ℝ).Init (fun k => k)).1 ⟨false, false, false, false, true, true⟩ 1
    (fun k => k) rfl rfl (by show (0 : Int) < 100; decide)
    (by show ¬ Time.Since 1 Time.zero > 10 * Second; decide)
  have hd1 : g1.Debug = true := d1
  have hk1 : g1.Key1Pressed = true := k1
  have hl1 : g1.Player.Life = 100 := l1
  obtain ⟨g2, u2, e2, p2, l2, s2, d2, k2⟩ := Game.Update_quiet g1
    ⟨false, false, false, false, true, false⟩ 2 (fun k => k) e1 p1 (by rw [hl1]; decide)
    (by rw [s1]; show ¬ Time.Since 2 Time.zero > 10 * Second; decide)
  rw [hd1, hk1] at d2
  rw [hk1] at k2
  have hd2 : g2.Debug = true := d2
  have hk2 : g2.Key1Pressed = true := k2
  obtain ⟨g3, u3, -, -, -, -, d3, -⟩ := Game.Update_quiet g2
    ⟨false, false, false, false, true, true⟩ 3 (fun k => k) e2 p2 (by rw [l2, hl1]; decide)
    (by rw [s2, s1]; show ¬ Time.Since 3 Time.zero > 10 * Second; decide)
  rw [hd2, hk2] at d3
  exact ⟨g1, g2, g3, u1, u2, u3, rfl, hd1, hd2, d3⟩

theorem Game_debug_steady_while_held_witness :
    ∃ g1 g2 : Game ℝ,
      ((Game.zero : Game ℝ).Init (fun k => k)).1.runTicks
        [⟨⟨false, false, false, false, true, true⟩, 1, fun k => k⟩] = some g1 ∧
      ((Game.zero : Game ℝ).Init (fun k => k)).1.runTicks
        [⟨⟨false, false, false, false, true, true⟩, 1, fun k => k⟩,
         ⟨⟨false, false, false, false, true, true⟩, 2, fun k => k⟩] = some g2 ∧
      g2.Debug = g1.Debug := by
  obtain ⟨g1, u1, -, -, l1, -, -, -⟩ := Game.Update_quiet
    ((Game.zero : Game ℝ).Init (fun k => k)).1 ⟨false, false, false, false, true, true⟩ 1
    (fun k => k) rfl rfl (by show (0 : Int) < 100; decide)
    (by show ¬ Time.Since 1 Time.zero > 10 * Second; decide)
  have hl1 : g1.Player.Life = 100 := l1
  exact Game_debug_steady_while_held ((Game.zero : Game ℝ).Init (fun k => k)).1
    [⟨⟨false, false, false, false, true, true⟩, 1, fun k => k⟩,
     ⟨⟨false, false, false, false, true, true⟩, 2, fun k => k⟩]
    (by
      intro u hu
      simp only [List.mem_cons, List.mem_singleton, List.not_mem_nil, or_false] at hu
      rcases hu with rfl | rfl <;> exact ⟨rfl, rfl⟩)
    (by
      intro k hk gk hgk
      have hk2 : k < 2 := hk
      interval_cases k
      · simp only [List.take_zero, Game.runTicks, Option.some.injEq] at hgk
        subst hgk
        show (0 : Int) < 100
        decide
      · simp only [List.take_succ_cons, List.take_zero, Game.runTicks, u1, Option.bind_some,
          Option.some.injEq] at hgk
        subst hgk
        rw [hl1]
        decide)
    2 (by norm_num) (le_refl _)

/-! ## The flight of a projectile -/

theorem Projectile.iterate_Update (q : Projectile ℝ) (n : Nat) :
    (Projectile.Update^[n] q).Position = q.Position.Add (q.Velocity.Mul n) ∧
    (Projectile.Update^[n] q).Velocity = q.Velocity := by
  induction n with
  | zero =>
    cases q
    simp [Vector.Add, Vector.Mul]
  | succ n ih =>
    rw [Function.iterate_succ_apply']
    obtain ⟨h1, h2⟩ := ih
    refine ⟨?_, h2⟩
    simp only [Projectile.Update, h1, h2, Vector.Add, Vector.Mul, Vector.mk.injEq]
    constructor <;> push_cast <;> ring

/-- A projectile that starts in `[10, 4990]²` with a velocity of length 20 is outside
the arena after 353 steps. -/
theorem Projectile.out_after_353 (q : Projectile ℝ)
    (hx : 10 ≤ q.Position.X ∧ q.Position.X ≤ 4990) (hy : 10 ≤ q.Position.Y ∧ q.Position.Y ≤ 4990)
    (hv : q.Velocity.Length = 20) :
    (Projectile.Update^[353] q).ShouldBeRemoved = true := by
  have hsq := Vector.Length_sq q.Velocity
  rw [hv] at hsq
  have hpos := (Projectile.iterate_Update q 353).1
  simp only [Projectile.ShouldBeRemoved, hpos, Vector.Add, Vector.Mul, Bool.or_eq_true,
    decide_eq_true_eq]
  push_cast
  by_cases hbig : 200 ≤ q.Velocity.X * q.Velocity.X
  · rcases le_or_lt 0 q.Velocity.X with h0 | h0
    · left; left; right
      by_contra hcon
      nlinarith [mul_nonneg (show (0:ℝ) ≤ 4990 - 353 * q.Velocity.X by linarith)
        (show (0:ℝ) ≤ 4990 + 353 * q.Velocity.X by linarith)]
    · left; left; left
      by_contra hcon
      nlinarith [mul_nonneg (show (0:ℝ) ≤ 4990 + 353 * q.Velocity.X by linarith)
        (show (0:ℝ) ≤ 4990 - 353 * q.Velocity.X by linarith)]
  · have hbigy : 200 ≤ q.Velocity.Y * q.Velocity.Y := by linarith
    rcases le_or_lt 0 q.Velocity.Y with h0 | h0
    · right
      by_contra hcon
      nlinarith [mul_nonneg (show (0:ℝ) ≤ 4990 - 353 * q.Velocity.Y by linarith)
        (show (0:ℝ) ≤ 4990 + 353 * q.Velocity.Y by linarith)]
    · left; right
      by_contra hcon
      nlinarith [mul_nonneg (show (0:ℝ) ≤ 4990 + 353 * q.Velocity.Y by linarith)
        (show (0:ℝ) ≤ 4990 - 353 * q.Velocity.Y by linarith)]

theorem Game.projectileLoop_mem (g0 g1 : Game ℝ)
    (hloop : g0.projectileLoop g0.Projectiles.length = some g1) (q : Projectile ℝ) :
    q ∈ g1.Projectiles ↔ (∃ p ∈ g0.Projectiles, p.Update = q) ∧ q.ShouldBeRemoved = false := by
  obtain ⟨g2, k1, k2, -, -⟩ := Game.projectileLoop_result g0
  rw [hloop] at k1
  cases k1
  rw [k2, projectilesAfterTick, List.mem_filter, List.mem_map]
  have hiff : q.inArena = true ↔ q.ShouldBeRemoved = false := by
    have h := Projectile.ShouldBeRemoved_iff q
    cases ha : q.inArena <;> cases hr : q.ShouldBeRemoved <;> simp_all
  rw [hiff]

/-- A projectile that starts in `[10, 4990]²` with a velocity of length 20 has a first
update count `n`, `1 ≤ n ≤ 353`, after which it is outside the arena; projectile
passes keep it before that and drop it then. -/
theorem Projectile.leaves_arena (q : Projectile ℝ)
    (hx : 10 ≤ q.Position.X ∧ q.Position.X ≤ 4990) (hy : 10 ≤ q.Position.Y ∧ q.Position.Y ≤ 4990)
    (hv : q.Velocity.Length = 20) :
    ∃ n : Nat, 1 ≤ n ∧ n ≤ 353 ∧
      (∀ k, k < n → (Projectile.Update^[k] q).ShouldBeRemoved = false) ∧
      (Projectile.Update^[n] q).ShouldBeRemoved = true ∧
      (∀ k, k + 1 < n → ∀ g0 g1 : Game ℝ,
        g0.projectileLoop g0.Projectiles.length = some g1 →
        Projectile.Update^[k] q ∈ g0.Projectiles →
        Projectile.Update^[k + 1] q ∈ g1.Projectiles) ∧
      (∀ g0 g1 : Game ℝ, g0.projectileLoop g0.Projectiles.length = some g1 →
        Projectile.Update^[n] q ∉ g1.Projectiles) := by
  have h353 := Projectile.out_after_353 q hx hy hv
  have hex : ∃ n, (Projectile.Update^[n] q).ShouldBeRemoved = true := ⟨353, h353⟩
  have hstart : q.ShouldBeRemoved = false := by
    simp only [Projectile.ShouldBeRemoved, Bool.or_eq_false_iff, decide_eq_false_iff_not, not_lt]
    exact ⟨⟨⟨by linarith [hx.1], by linarith [hx.2]⟩, by linarith [hy.1]⟩, by linarith [hy.2]⟩
  have hmin : ∀ k, k < Nat.find hex → (Projectile.Update^[k] q).ShouldBeRemoved = false := by
    intro k hk
    have := Nat.find_min hex hk
    simpa using this
  refine ⟨Nat.find hex, ?_, Nat.find_min' hex h353, hmin, Nat.find_spec hex, ?_, ?_⟩
  · by_contra hlt
    have h0 : Nat.find hex = 0 := by omega
    have hs := Nat.find_spec hex
    rw [h0, Function.iterate_zero, id_eq, hstart] at hs
    exact Bool.false_ne_true hs
  · intro k hk g0 g1 hloop hmem
    rw [Game.projectileLoop_mem g0 g1 hloop]
    exact ⟨⟨_, hmem, (Function.iterate_succ_apply' _ _ _).symm⟩, hmin (k + 1) hk⟩
  · intro g0 g1 hloop hmem
    rw [Game.projectileLoop_mem g0 g1 hloop] at hmem
    rw [Nat.find_spec hex] at hmem
    exact Bool.noConfusion hmem.2

/-- C20. The projectile appended by the shooting branch of `Enemy.Update` starts at
the clamped enemy position, inside `[10, 4990]²`, with a velocity of length 20; its
position after `n` calls of `Projectile.Update` is start + `n` * velocity; and
there is an `n` with `1 ≤ n ≤ 353` such that it is inside the arena before its
`n`-th update, so that every earlier projectile pass keeps it, and
`ShouldBeRemoved` holds after its `n`-th update, so that no projectile pass leaves
it in `g.Projectiles`. -/
theorem Enemy_shot_leaves_arena (e : Enemy ℝ) (p : Player ℝ) (g : Game ℝ) (now : Time)
    (hlo : 400 ≤ (p.Position.Sub e.toEntity.Update.Position).Length)
    (hhi : (p.Position.Sub e.toEntity.Update.Position).Length < 800)
    (hb : 0 < e.Bullets) (ht : Time.Since now e.LastShotTime > g.ShootingCoolDown) :
    ∃ q : Projectile ℝ,
      (e.Update p g now).2.2.Projectiles = g.Projectiles ++ [q] ∧
      q.Position = e.toEntity.Update.Position ∧
      (10 ≤ q.Position.X ∧ q.Position.X ≤ 4990) ∧
      (10 ≤ q.Position.Y ∧ q.Position.Y ≤ 4990) ∧
      q.Velocity.Length = 20 ∧
      (∀ n : Nat, (Projectile.Update^[n] q).Position = q.Position.Add (q.Velocity.Mul n)) ∧
      ∃ n : Nat, 1 ≤ n ∧ n ≤ 353 ∧
        (∀ k, k < n → (Projectile.Update^[k] q).ShouldBeRemoved = false) ∧
        (Projectile.Update^[n] q).ShouldBeRemoved = true ∧
        (∀ k, k + 1 < n → ∀ g0 g1 : Game ℝ,
          g0.projectileLoop g0.Projectiles.length = some g1 →
          Projectile.Update^[k] q ∈ g0.Projectiles →
          Projectile.Update^[k + 1] q ∈ g1.Projectiles) ∧
        (∀ g0 g1 : Game ℝ, g0.projectileLoop g0.Projectiles.length = some g1 →
          Projectile.Update^[n] q ∉ g1.Projectiles) := by
  have hpos : 0 < (p.Position.Sub e.toEntity.Update.Position).Length := by linarith
  have hne : (p.Position.Sub e.toEntity.Update.Position).Length ≠ 0 := ne_of_gt hpos
  obtain ⟨hcx, hcy⟩ := Entity_clamp_range e.toEntity
  have hvel : ((p.Position.Sub e.toEntity.Update.Position).Normalize.Mul 20).Length = 20 := by
    rw [Vector.Length_Mul, Vector.Length_Normalize _ hne]
    norm_num
  refine ⟨{ Position := e.toEntity.Update.Position,
            Velocity := (p.Position.Sub e.toEntity.Update.Position).Normalize.Mul 20 },
    ?_, rfl, hcx, hcy, hvel, fun n => (Projectile.iterate_Update _ n).1,
    Projectile.leaves_arena _ hcx hcy hvel⟩
  rw [Enemy.Update_range e p g now hlo hhi, if_pos ⟨hb, ht⟩]

theorem Enemy_shot_leaves_arena_witness :
    ∃ q : Projectile ℝ,
      (Enemy.Update (Enemy.spawned 100 100) (Player.fresh 600 100) (Game.zero : Game ℝ)
        1000).2.2.Projectiles = [q] ∧
      ∃ n : Nat, n ≤ 353 ∧ (Projectile.Update^[n] q).ShouldBeRemoved = true := by
  have hc : (Enemy.spawned (100 : ℝ) 100).toEntity.Update = (Enemy.spawned (100 : ℝ) 100).toEntity :=
    Entity.Update_of_inside _ (by norm_num [Enemy.spawned]) (by norm_num [Enemy.spawned])
      (by norm_num [Enemy.spawned]) (by norm_num [Enemy.spawned])
  have hlen : ((Player.fresh (600 : ℝ) 100).Position.Sub
      (Enemy.spawned (100 : ℝ) 100).toEntity.Update.Position).Length = 500 := by
    rw [hc]
    exact Vector.Length_of_sq _ 500 (by norm_num)
      (by norm_num [Player.fresh, Enemy.spawned, Vector.Sub])
  obtain ⟨q, h1, -, -, -, -, -, n, -, h3, -, h5, -⟩ :=
    Enemy_shot_leaves_arena (Enemy.spawned 100 100) (Player.fresh 600 100) Game.zero 1000
      (by rw [hlen]; norm_num) (by rw [hlen]; norm_num) (by decide) (by decide)
  exact ⟨q, h1, n, h3, h5⟩

/-! ## The camera in binary64 arithmetic -/

theorem roundEven_of_near (y : ℚ) (n : ℤ) (h : |y - n| < 1 / 2) : roundEven y = n := by
  rw [abs_lt] at h
  obtain ⟨h1, h2⟩ := h
  unfold roundEven
  rcases le_or_lt (n : ℚ) y with hle | hlt
  · have hf : ⌊y⌋ = n := by
      rw [Int.floor_eq_iff]
      constructor
      · exact hle
      · linarith
    rw [hf, if_pos (by linarith)]
  · have hf : ⌊y⌋ = n - 1 := by
      rw [Int.floor_eq_iff]
      push_cast
      constructor <;> linarith
    rw [hf]
    push_cast
    rw [if_neg (by linarith), if_pos (by linarith)]
    ring

theorem exponent64_eq (x : ℚ) (e : ℤ) (h1 : (2 : ℚ) ^ e ≤ |x|) (h2 : |x| < (2 : ℚ) ^ (e + 1))
    (he : -1022 ≤ e) : exponent64 x = e := by
  have hpos : 0 < |x| := lt_of_lt_of_le (by positivity) h1
  have a : e ≤ Int.log 2 |x| :=
    (Int.zpow_le_iff_le_log (b := 2) (by norm_num) hpos).mp (by exact_mod_cast h1)
  have b : Int.log 2 |x| < e + 1 :=
    (Int.lt_zpow_iff_log_lt (b := 2) (by norm_num) hpos).mp (by exact_mod_cast h2)
  unfold exponent64
  omega

/-- How `round64` is evaluated at a non-zero `x` that is not a tie: with `e` the binary
exponent of `x` and `n` the integer nearest to `x / 2 ^ (e - 52)`. -/
theorem round64_eq (x : ℚ) (e n : ℤ) (h1 : (2 : ℚ) ^ e ≤ |x|) (h2 : |x| < (2 : ℚ) ^ (e + 1))
    (he : -1022 ≤ e) (hn : |x / (2 : ℚ) ^ (e - 52) - n| < 1 / 2) :
    round64 x = n * (2 : ℚ) ^ (e - 52) := by
  unfold round64 ulp64
  rw [exponent64_eq x e h1 h2 he, roundEven_of_near _ n hn]

theorem round64_zero : round64 0 = 0 := by
  unfold round64
  simp [roundEven]

theorem round64_of_pos (x : ℚ) (e n : ℤ) (h1 : (2 : ℚ) ^ e ≤ x) (h2 : x < (2 : ℚ) ^ (e + 1))
    (he : -1022 ≤ e) (hn : |x / (2 : ℚ) ^ (e - 52) - n| < 1 / 2) :
    round64 x = n * (2 : ℚ) ^ (e - 52) := by
  have hpos : 0 < x := lt_of_lt_of_le (by positivity) h1
  exact round64_eq x e n (by rw [abs_of_pos hpos]; exact h1) (by rw [abs_of_pos hpos]; exact h2)
    he hn

theorem round64_1920 : round64 (1920) = 1920 := by
  rw [round64_of_pos (1920) (10) 8444249301319680 (by norm_num) (by norm_num) (by norm_num)
    (by rw [abs_lt]; constructor <;> norm_num)]
  norm_num

theorem round64_1080 : round64 (1080) = 1080 := by
  rw [round64_of_pos (1080) (10) 4749890231992320 (by norm_num) (by norm_num) (by norm_num)
    (by rw [abs_lt]; constructor <;> norm_num)]
  norm_num

theorem round64_1920_half : round64 (1920 / 2) = 960 := by
  rw [round64_of_pos (1920 / 2) (9) 8444249301319680 (by norm_num) (by norm_num) (by norm_num)
    (by rw [abs_lt]; constructor <;> norm_num)]
  norm_num

theorem round64_1080_half : round64 (1080 / 2) = 540 := by
  rw [round64_of_pos (1080 / 2) (9) 4749890231992320 (by norm_num) (by norm_num) (by norm_num)
    (by rw [abs_lt]; constructor <;> norm_num)]
  norm_num

theorem round64_959 : round64 (-1 + 960) = 959 := by
  rw [round64_of_pos (-1 + 960) (9) 8435453208297472 (by norm_num) (by norm_num) (by norm_num)
    (by rw [abs_lt]; constructor <;> norm_num)]
  norm_num

theorem round64_539 : round64 (-1 + 540) = 539 := by
  rw [round64_of_pos (-1 + 540) (9) 4741094138970112 (by norm_num) (by norm_num) (by norm_num)
    (by rw [abs_lt]; constructor <;> norm_num)]
  norm_num

theorem round64_959_sub : round64 (959 - 0) = 959 := by
  rw [round64_of_pos (959 - 0) (9) 8435453208297472 (by norm_num) (by norm_num) (by norm_num)
    (by rw [abs_lt]; constructor <;> norm_num)]
  norm_num

theorem round64_539_sub : round64 (539 - 0) = 539 := by
  rw [round64_of_pos (539 - 0) (9) 4741094138970112 (by norm_num) (by norm_num) (by norm_num)
    (by rw [abs_lt]; constructor <;> norm_num)]
  norm_num

theorem round64_factor : round64 (0.05) = 3602879701896397 / 72057594037927936 := by
  rw [round64_of_pos (0.05) (-5) 7205759403792794 (by norm_num) (by norm_num) (by norm_num)
    (by rw [abs_lt]; constructor <;> norm_num)]
  norm_num

theorem round64_959_mul : round64 (959 * (3602879701896397 / 72057594037927936)) = 3374181283318989 / 70368744177664 := by
  rw [round64_of_pos (959 * (3602879701896397 / 72057594037927936)) (5) 6748362566637978 (by norm_num) (by norm_num) (by norm_num)
    (by rw [abs_lt]; constructor <;> norm_num)]
  norm_num

theorem round64_539_mul : round64 (539 * (3602879701896397 / 72057594037927936)) = 1896437655588045 / 70368744177664 := by
  rw [round64_of_pos (539 * (3602879701896397 / 72057594037927936)) (4) 7585750622352180 (by norm_num) (by norm_num) (by norm_num)
    (by rw [abs_lt]; constructor <;> norm_num)]
  norm_num

theorem round64_X_add : round64 (0 + (3374181283318989 / 70368744177664)) = 3374181283318989 / 70368744177664 := by
  rw [round64_of_pos (0 + (3374181283318989 / 70368744177664)) (5) 6748362566637978 (by norm_num) (by norm_num) (by norm_num)
    (by rw [abs_lt]; constructor <;> norm_num)]
  norm_num

theorem round64_Y_add : round64 (0 + (1896437655588045 / 70368744177664)) = 1896437655588045 / 70368744177664 := by
  rw [round64_of_pos (0 + (1896437655588045 / 70368744177664)) (4) 7585750622352180 (by norm_num) (by norm_num) (by norm_num)
    (by rw [abs_lt]; constructor <;> norm_num)]
  norm_num

/-- C15, as stated, fails in binary64 arithmetic. For the camera at `(0, 0)` and a
target at `(1, 1)` the rounded computation of `Camera.FollowTarget` yields
`(3374181283318989 / 2^46, 1896437655588045 / 2^46)`, printed 47.95 and
26.950000000000003, which is not `c + 0.05 * (t - c) = (47.95, 26.95)` with
`t = (959, 539)`, and the new offset `t - c` is not `0.95` times the old one. -/
theorem Camera_FollowTarget64_inexact :
    (Camera.FollowTarget64 ⟨⟨0, 0⟩⟩ ⟨⟨1, 1⟩, ⟨0, 0⟩, 8⟩ 1920 1080).Position =
      ⟨3374181283318989 / 70368744177664, 1896437655588045 / 70368744177664⟩ ∧
    (Camera.FollowTarget64 ⟨⟨0, 0⟩⟩ ⟨⟨1, 1⟩, ⟨0, 0⟩, 8⟩ 1920 1080).Position ≠
      (⟨0, 0⟩ : Vector ℚ).Add
        (((⟨960 - 1, 540 - 1⟩ : Vector ℚ).Sub (⟨0, 0⟩ : Vector ℚ)).Mul 0.05) ∧
    (Camera.FollowTarget64 ⟨⟨0, 0⟩⟩ ⟨⟨1, 1⟩, ⟨0, 0⟩, 8⟩ 1920 1080).Position ≠
      (Camera.FollowTarget (⟨⟨0, 0⟩⟩ : Camera ℚ) ⟨⟨1, 1⟩, ⟨0, 0⟩, 8⟩ 1920 1080).Position ∧
    (⟨960 - 1, 540 - 1⟩ : Vector ℚ).Sub
        (Camera.FollowTarget64 ⟨⟨0, 0⟩⟩ ⟨⟨1, 1⟩, ⟨0, 0⟩, 8⟩ 1920 1080).Position ≠
      ((⟨960 - 1, 540 - 1⟩ : Vector ℚ).Sub (⟨0, 0⟩ : Vector ℚ)).Mul 0.95 := by
  have hval : (Camera.FollowTarget64 ⟨⟨0, 0⟩⟩ ⟨⟨1, 1⟩, ⟨0, 0⟩, 8⟩ 1920 1080).Position =
      ⟨3374181283318989 / 70368744177664, 1896437655588045 / 70368744177664⟩ := by
    simp only [Camera.FollowTarget64, Vector.Add64, Vector.Sub64, Vector.Mul64, Int.cast_ofNat,
      round64_1920, round64_1080, round64_1920_half, round64_1080_half, round64_959,
      round64_539, round64_959_sub, round64_539_sub, round64_factor, round64_959_mul,
      round64_539_mul, round64_X_add, round64_Y_add]
  refine ⟨hval, ?_, ?_, ?_⟩
  · rw [hval]
    intro h
    have hx := congrArg Vector.X h
    norm_num [Vector.Add, Vector.Sub, Vector.Mul] at hx
  · rw [hval]
    intro h
    have hx := congrArg Vector.X h
    norm_num [Camera.FollowTarget, Vector.Add, Vector.Sub, Vector.Mul] at hx
  · rw [hval]
    intro h
    have hx := congrArg Vector.X h
    norm_num [Vector.Sub, Vector.Mul] at hx

end Run
